import Mathlib

/-!
Verification of the device-state simulation engine of the `deploy-lite`
repository (Go source in `h3c-snmp-sim`, enhanced version).

The Go program keeps
  * an entity model (`interfaceData`, `fanData`, `psuData`),
  * an OID-keyed typed value store (`oidMap : map[string]gosnmp.SnmpPDU`),
  * a set of Prometheus metrics (gauges, counters, gauge/counter vectors),
and two periodic tasks:
  * `monitorSystemMetrics` (fast cycle, every 1 s): random-walks the CPU and
    temperature gauges, recomputes the memory-utilization gauge from the
    process allocation, derives interface rates, probabilistically flips
    fan/PSU health, re-rolls ARP/MAC/TCP gauges, and publishes everything
    into both the Prometheus registry and the OID store;
  * `incrementCounters` (slow cycle, every 5 s): advances the cumulative
    octet/error/discard counters of Up interfaces, resets their rate
    baselines, and advances the standard sysUpTime scalar.

The shallow embedding below translates that code directly:
  * Go `float64` values are modelled as `ℚ` (the program only adds,
    subtracts, divides and compares values far from float rounding issues);
  * Go `uint64`/`uint32` arithmetic is modelled on `ℕ` with explicit
    `% 2^64` / `% 2^32` where the source wraps;
  * each `rand.Intn(n)` draw is an input: a `ℕ` taken modulo `n`, so a tick
    is a deterministic function of the pre-state, the draws and the
    environment (clock, `runtime.MemStats`, goroutine count);
  * the Go map is an association list with Go's insert-or-replace
    assignment semantics.
-/

/-- Tag of a `gosnmp.SnmpPDU` value, restricted to the tags the program uses. -/
inductive PduType where
  | octetString
  | integer
  | counter32
  | gauge32
  | timeTicks
deriving DecidableEq, Repr

/-- A Go value stored in `SnmpPDU.Value` (`interface{}` in the source): the
program only ever stores `[]byte`, `uint32` and `int32` payloads. -/
inductive GoVal where
  | bytes (s : String)
  | u32 (v : ℕ)
  | i32 (v : ℤ)
deriving DecidableEq, Repr

/-- Does the dynamic type of the value match Go's `value.(uint32)` assertion? -/
def GoVal.isU32 : GoVal → Bool
  | .u32 _ => true
  | _ => false

/-- Does the dynamic type of the value match Go's `value.(int32)` assertion? -/
def GoVal.isI32 : GoVal → Bool
  | .i32 _ => true
  | _ => false

/-- Does the dynamic type of the value match a `[]byte` payload? -/
def GoVal.isBytes : GoVal → Bool
  | .bytes _ => true
  | _ => false

/-- `gosnmp.SnmpPDU` as used by the program: a name, a type tag and a value. -/
structure SnmpPDU where
  name : String
  type : PduType
  value : GoVal
deriving DecidableEq, Repr

/-- The typed value store `oidMap : map[string]gosnmp.SnmpPDU`, modelled as an
association list with the first binding of a key the authoritative one. -/
abbrev Store := List (String × SnmpPDU)

/-- Go map read `oidMap[oid]` (with the `ok` flag represented by `Option`). -/
def storeFind : Store → String → Option SnmpPDU
  | [], _ => none
  | e :: rest, k => if e.1 = k then some e.2 else storeFind rest k

/-- Go map assignment `oidMap[oid] = pdu`: replace the binding if the key is
present, otherwise append a new binding. -/
def storeUpsert : Store → String → SnmpPDU → Store
  | [], k, p => [(k, p)]
  | e :: rest, k, p => if e.1 = k then (k, p) :: rest else e :: storeUpsert rest k p

@[simp] theorem storeFind_nil (k : String) : storeFind [] k = none := rfl

theorem storeFind_cons (e : String × SnmpPDU) (rest : Store) (k : String) :
    storeFind (e :: rest) k = if e.1 = k then some e.2 else storeFind rest k := rfl

@[simp] theorem storeFind_upsert_self (m : Store) (k : String) (p : SnmpPDU) :
    storeFind (storeUpsert m k p) k = some p := by
  induction m with
  | nil => simp [storeUpsert, storeFind]
  | cons e rest ih =>
    by_cases h : e.1 = k
    · simp [storeUpsert, storeFind, h]
    · simp [storeUpsert, storeFind, h, ih]

@[simp] theorem storeFind_upsert_ne (m : Store) (k k' : String) (p : SnmpPDU)
    (h : k' ≠ k) : storeFind (storeUpsert m k p) k' = storeFind m k' :=
  by
  induction m with
  | nil => simp [storeUpsert, storeFind, Ne.symm h]
  | cons e rest ih =>
    by_cases he : e.1 = k
    · subst he
      simp [storeUpsert, storeFind, Ne.symm h]
    · simp only [storeUpsert, if_neg he]
      by_cases he' : e.1 = k'
      · simp [storeFind, he']
      · simp [storeFind, he', ih]

theorem storeUpsert_keys_of_present (m : Store) (k : String) (p q : SnmpPDU)
    (h : storeFind m k = some q) :
    (storeUpsert m k p).map Prod.fst = m.map Prod.fst := by
  induction m with
  | nil => simp [storeFind] at h
  | cons e rest ih =>
    by_cases he : e.1 = k
    · simp [storeUpsert, he]
    · simp only [storeFind, if_neg he] at h
      simp [storeUpsert, he, ih h]

/-- `updateOidValue` from `monitorSystemMetrics`: a get-modify-put update of a
predefined scalar OID.  If the key is absent nothing happens; if the stored
type tag expects `uint32` (`Gauge32`, `Counter32`, `TimeTicks`) the update is
applied only when the new value is a `uint32`; if it expects `int32`
(`Integer`) only when the new value is an `int32`; any other stored tag hits
the `default` branch and is skipped with a warning.  A skipped update only
logs; it never panics and never changes the store. -/
def updateOidValue (m : Store) (oid : String) (value : GoVal) : Store :=
  match storeFind m oid with
  | none => m
  | some pdu =>
    match pdu.type with
    | .gauge32 | .counter32 | .timeTicks =>
      match value with
      | .u32 v => storeUpsert m oid { pdu with value := .u32 v }
      | _ => m
    | .integer =>
      match value with
      | .i32 v => storeUpsert m oid { pdu with value := .i32 v }
      | _ => m
    | .octetString => m

/-- The new value's Go type disagrees with the key's established type tag:
`uint32` expected for `Gauge32`/`Counter32`/`TimeTicks`, `int32` for
`Integer`, `[]byte` for `OctetString`. -/
def typeMismatch (ty : PduType) (v : GoVal) : Bool :=
  match ty with
  | .gauge32 | .counter32 | .timeTicks => !v.isU32
  | .integer => !v.isI32
  | .octetString => !v.isBytes

theorem updateOidValue_absent (m : Store) (oid : String) (v : GoVal)
    (h : storeFind m oid = none) : updateOidValue m oid v = m := by
  simp [updateOidValue, h]

theorem updateOidValue_keys (m : Store) (oid : String) (v : GoVal) :
    (updateOidValue m oid v).map Prod.fst = m.map Prod.fst := by
  unfold updateOidValue
  cases h : storeFind m oid with
  | none => rfl
  | some pdu =>
    obtain ⟨nm, ty, val⟩ := pdu
    cases ty <;> cases v <;>
      simp [storeUpsert_keys_of_present m oid _ _ h]

theorem updateOidValue_find_ne (m : Store) (oid k : String) (v : GoVal)
    (h : k ≠ oid) : storeFind (updateOidValue m oid v) k = storeFind m k := by
  unfold updateOidValue
  cases hf : storeFind m oid with
  | none => rfl
  | some pdu =>
    obtain ⟨nm, ty, val⟩ := pdu
    cases ty <;> cases v <;> simp [h]

theorem updateOidValue_apply_u32 (m : Store) (oid : String) (pdu : SnmpPDU) (x : ℕ)
    (h : storeFind m oid = some pdu)
    (hty : pdu.type = .gauge32 ∨ pdu.type = .counter32 ∨ pdu.type = .timeTicks) :
    storeFind (updateOidValue m oid (.u32 x)) oid
      = some { pdu with value := .u32 x } := by
  obtain ⟨nm, ty, val⟩ := pdu
  unfold updateOidValue
  rcases hty with hty | hty | hty <;> simp only at hty <;> subst hty <;>
    rw [h] <;> simp

/-- C7: for every key present in the store, an update through `updateOidValue`
with a value whose Go type disagrees with the key's established type tag
leaves the store (hence the stale value) unchanged; the function is total, so
the mismatch can never crash, it is only logged. -/
theorem updateOidValue_type_mismatch_noop (m : Store) (oid : String)
    (pdu : SnmpPDU) (v : GoVal)
    (hfind : storeFind m oid = some pdu)
    (hmis : typeMismatch pdu.type v = true) :
    updateOidValue m oid v = m := by
  obtain ⟨nm, ty, val⟩ := pdu
  unfold updateOidValue
  rw [hfind]
  simp only at hmis
  cases ty <;> cases v <;>
    simp_all [typeMismatch, GoVal.isU32, GoVal.isI32, GoVal.isBytes]

/-- C7 witness: a `Gauge32` entry updated with an `int32` value is retained. -/
theorem updateOidValue_type_mismatch_noop_witness :
    storeFind [("k", SnmpPDU.mk "k" .gauge32 (.u32 7))] "k"
        = some (SnmpPDU.mk "k" .gauge32 (.u32 7))
      ∧ typeMismatch PduType.gauge32 (.i32 3) = true
      ∧ updateOidValue [("k", SnmpPDU.mk "k" .gauge32 (.u32 7))] "k" (.i32 3)
        = [("k", SnmpPDU.mk "k" .gauge32 (.u32 7))] :=
  ⟨by decide, by decide,
    updateOidValue_type_mismatch_noop [("k", SnmpPDU.mk "k" .gauge32 (.u32 7))]
      "k" (SnmpPDU.mk "k" .gauge32 (.u32 7)) (.i32 3) (by decide) (by decide)⟩

/-- C10: the scalar-update path never inserts: an update of an absent key is a
silent no-op, and in every case the store's key set is unchanged, so new keys
can only enter the store through direct per-entity map assignments. -/
theorem updateOidValue_never_inserts (m : Store) (oid : String) (v : GoVal) :
    (storeFind m oid = none → updateOidValue m oid v = m)
      ∧ (updateOidValue m oid v).map Prod.fst = m.map Prod.fst :=
  ⟨updateOidValue_absent m oid v, updateOidValue_keys m oid v⟩

/-- C10 witness: updating a key that is not in a one-entry store is a no-op
and keeps the key set. -/
theorem updateOidValue_never_inserts_witness :
    storeFind [("k", SnmpPDU.mk "k" .gauge32 (.u32 7))] "absent" = none
      ∧ updateOidValue [("k", SnmpPDU.mk "k" .gauge32 (.u32 7))] "absent" (.u32 1)
        = [("k", SnmpPDU.mk "k" .gauge32 (.u32 7))] :=
  ⟨by decide,
    (updateOidValue_never_inserts [("k", SnmpPDU.mk "k" .gauge32 (.u32 7))]
      "absent" (.u32 1)).1 (by decide)⟩

/-- `interfaceData`: one simulated network port.  Times are in seconds
(`ℚ`); octet and packet counters are the Go `uint64` fields. -/
structure interfaceData where
  index : ℤ
  descr : String
  adminStatus : ℤ
  operStatus : ℤ
  inOctets : ℕ
  outOctets : ℕ
  lastInOctets : ℕ
  lastOutOctets : ℕ
  lastUpdateTime : ℚ
  inErrors : ℕ
  outDiscards : ℕ
deriving DecidableEq, Repr

/-- `fanData`: one simulated fan (`status`: 1 = normal, 2 = failed). -/
structure fanData where
  index : ℤ
  descr : String
  status : ℤ
deriving DecidableEq, Repr

/-- `psuData`: one simulated power supply
(`status`: 1 = normal, 2 = failed, 3 = not_present). -/
structure psuData where
  index : ℤ
  descr : String
  status : ℤ
deriving DecidableEq, Repr

/-- A Prometheus gauge/counter vector, keyed by the entity index that the
program formats into the `ifIndex`/`fanIndex`/`psuIndex` label. -/
abbrev MetricVec := List (ℤ × ℚ)

/-- Read a vector element (`none` = no sample was ever set for that label). -/
def vecFind : MetricVec → ℤ → Option ℚ
  | [], _ => none
  | e :: rest, k => if e.1 = k then some e.2 else vecFind rest k

/-- `GaugeVec.WithLabelValues(...).Set(v)`: create or overwrite a sample. -/
def vecSet : MetricVec → ℤ → ℚ → MetricVec
  | [], k, v => [(k, v)]
  | e :: rest, k, v => if e.1 = k then (k, v) :: rest else e :: vecSet rest k v

/-- `CounterVec.WithLabelValues(...).Add(d)`: add to a sample (a fresh sample
starts at 0, as a Prometheus counter does). -/
def vecAdd (m : MetricVec) (k : ℤ) (d : ℚ) : MetricVec :=
  vecSet m k ((vecFind m k).getD 0 + d)

@[simp] theorem vecFind_nil (k : ℤ) : vecFind [] k = none := rfl

@[simp] theorem vecFind_set_self (m : MetricVec) (k : ℤ) (v : ℚ) :
    vecFind (vecSet m k v) k = some v := by
  induction m with
  | nil => simp [vecSet, vecFind]
  | cons e rest ih =>
    by_cases h : e.1 = k
    · simp [vecSet, vecFind, h]
    · simp [vecSet, vecFind, h, ih]

@[simp] theorem vecFind_set_ne (m : MetricVec) (k k' : ℤ) (v : ℚ)
    (h : k' ≠ k) : vecFind (vecSet m k v) k' = vecFind m k' := by
  induction m with
  | nil => simp [vecSet, vecFind, Ne.symm h]
  | cons e rest ih =>
    by_cases he : e.1 = k
    · subst he
      simp [vecSet, vecFind, Ne.symm h]
    · simp only [vecSet, if_neg he]
      by_cases he' : e.1 = k'
      · simp [vecFind, he']
      · simp [vecFind, he', ih]

theorem vecAdd_mono (m : MetricVec) (k : ℤ) (d : ℚ) (hd : 0 ≤ d) (idx : ℤ) :
    (vecFind m idx).getD 0 ≤ (vecFind (vecAdd m k d) idx).getD 0 := by
  by_cases h : idx = k
  · subst h
    simp [vecAdd]
    linarith
  · simp [vecAdd, vecFind_set_ne _ _ _ _ h]

/-- Go `uint64` subtraction `a - b` (wraps modulo `2^64`); in the program it
is applied to `currentCumulativeOctets - baselineOctets`. -/
def go64sub (a b : ℕ) : ℕ := (a + (18446744073709551616 - b % 18446744073709551616)) % 18446744073709551616

theorem go64sub_eq (a b : ℕ) (hba : b ≤ a) (ha : a < 18446744073709551616) :
    go64sub a b = a - b := by
  unfold go64sub
  have hb : b % 18446744073709551616 = b := Nat.mod_eq_of_lt (lt_of_le_of_lt hba ha)
  rw [hb]
  omega

/-- Go conversion `uint32(f)` of a nonnegative `float64`: truncate toward
zero, wrap modulo `2^32`. -/
def goU32Q (q : ℚ) : ℕ := (Rat.floor q).toNat % 4294967296

/-- Go conversion `int32(f)` of a `float64` in the program's small positive
ranges: truncate toward zero. -/
def goI32Q (q : ℚ) : ℤ := Rat.floor q

theorem rat_floor_of_den_one (q : ℚ) (h : q.den = 1) : Rat.floor q = q.num := by
  rw [Rat.floor_def', h]
  simp

theorem rat_num_cast_of_den_one (q : ℚ) (h : q.den = 1) : (q.num : ℚ) = q := by
  conv_rhs => rw [← Rat.num_div_den q]
  rw [h]
  push_cast
  ring

theorem goU32Q_intCast (k : ℤ) (h0 : 0 ≤ k) (h1 : k < 4294967296) :
    goU32Q (k : ℚ) = k.toNat := by
  unfold goU32Q
  rw [rat_floor_of_den_one _ (Rat.den_intCast k), Rat.num_intCast]
  exact Nat.mod_eq_of_lt (by omega)

/-- `.1.3.6.1.2.1.1.1.0` (`sysDescr`). -/
def sysDescrOid : String := ".1.3.6.1.2.1.1.1.0"

/-- `.1.3.6.1.2.1.1.3.0` (`sysUpTime`), the standard system uptime scalar. -/
def sysUpTimeOid : String := ".1.3.6.1.2.1.1.3.0"

/-- `.1.3.6.1.2.1.1.5.0` (`sysName`). -/
def sysNameOid : String := ".1.3.6.1.2.1.1.5.0"

/-- `.1.3.6.1.2.1.2.1.0` (`ifNumber`). -/
def ifNumberOid : String := ".1.3.6.1.2.1.2.1.0"

/-- `.1.3.6.1.4.1.2021.13.1.1.0` (`simVersion`). -/
def simVersionOid : String := ".1.3.6.1.4.1.2021.13.1.1.0"

/-- `.1.3.6.1.4.1.2021.13.1.2.0` (`simGoroutines`). -/
def simGoroutinesOid : String := ".1.3.6.1.4.1.2021.13.1.2.0"

/-- `.1.3.6.1.4.1.2021.13.1.3.0` (`simGcCount`). -/
def simGcCountOid : String := ".1.3.6.1.4.1.2021.13.1.3.0"

/-- `.1.3.6.1.4.1.2021.13.1.4.0` (`simMemoryMB`). -/
def simMemoryMBOid : String := ".1.3.6.1.4.1.2021.13.1.4.0"

/-- `.1.3.6.1.4.1.2021.13.1.5.0` (`simUptimeSec`, in time-ticks). -/
def simUptimeSecOid : String := ".1.3.6.1.4.1.2021.13.1.5.0"

/-- `.1.3.6.1.4.1.2021.13.1.6.0` (`simDeviceCpuUsagePercent`), the simulator
CPU key of the typed value store. -/
def simCpuOid : String := ".1.3.6.1.4.1.2021.13.1.6.0"

/-- `.1.3.6.1.4.1.2021.13.3.2.0` (`simMemoryUtilPercent`). -/
def simMemUtilOid : String := ".1.3.6.1.4.1.2021.13.3.2.0"

/-- `.1.3.6.1.4.1.2021.13.3.3.0` (`simDeviceTemperatureCelsius`). -/
def simTempOid : String := ".1.3.6.1.4.1.2021.13.3.3.0"

/-- `.1.3.6.1.4.1.2021.13.3.8.0` (`simArpCacheEntries`). -/
def simArpOid : String := ".1.3.6.1.4.1.2021.13.3.8.0"

/-- `.1.3.6.1.4.1.2021.13.3.9.0` (`simMacTableEntries`). -/
def simMacOid : String := ".1.3.6.1.4.1.2021.13.3.9.0"

/-- `.1.3.6.1.4.1.2021.13.3.10.0` (`simActiveTcpConnections`). -/
def simTcpOid : String := ".1.3.6.1.4.1.2021.13.3.10.0"

/-- `fmt.Sprintf("%s.%d.1", customSimIfRateOIDPrefix, idx)`: per-interface
in-rate key. -/
def ifRateInKey (idx : ℤ) : String := ".1.3.6.1.4.1.2021.13.2." ++ (toString idx ++ ".1")

/-- `fmt.Sprintf("%s.%d.2", customSimIfRateOIDPrefix, idx)`: per-interface
out-rate key. -/
def ifRateOutKey (idx : ℤ) : String := ".1.3.6.1.4.1.2021.13.2." ++ (toString idx ++ ".2")

/-- `.1.3.6.1.4.1.2021.13.3.6.1.<ifIndex>`: per-interface inErrors key. -/
def ifErrKey (idx : ℤ) : String := ".1.3.6.1.4.1.2021.13.3.6.1." ++ (toString idx ++ "")

/-- `.1.3.6.1.4.1.2021.13.3.7.1.<ifIndex>`: per-interface outDiscards key. -/
def ifDiscKey (idx : ℤ) : String := ".1.3.6.1.4.1.2021.13.3.7.1." ++ (toString idx ++ "")

/-- `.1.3.6.1.4.1.2021.13.3.4.1.<fanIndex>`: per-fan status key. -/
def fanKey (idx : ℤ) : String := ".1.3.6.1.4.1.2021.13.3.4.1." ++ (toString idx ++ "")

/-- `.1.3.6.1.4.1.2021.13.3.5.1.<psuIndex>`: per-PSU status key. -/
def psuKey (idx : ℤ) : String := ".1.3.6.1.4.1.2021.13.3.5.1." ++ (toString idx ++ "")

theorem string_append_ne_of_head_ne (p q x y : String)
    (hl : p.length = q.length) (hne : p ≠ q) : p ++ x ≠ q ++ y := by
  intro h
  have hd : p.data ++ x.data = q.data ++ y.data := by
    have := congrArg String.data h
    simpa using this
  rcases List.append_inj hd hl with ⟨h1, _⟩
  exact hne (String.ext h1)

theorem string_append_ne_short (p x q : String) (h : q.length < p.length) :
    p ++ x ≠ q := by
  intro he
  have := congrArg String.length he
  rw [String.length_append] at this
  omega

/-- All dynamic per-entity keys are longer than `sysUpTimeOid`. -/
theorem ifRateInKey_ne_sysUpTimeOid (idx : ℤ) : ifRateInKey idx ≠ sysUpTimeOid :=
  string_append_ne_short _ _ _ (by decide)

theorem ifRateOutKey_ne_sysUpTimeOid (idx : ℤ) : ifRateOutKey idx ≠ sysUpTimeOid :=
  string_append_ne_short _ _ _ (by decide)

theorem ifErrKey_ne_sysUpTimeOid (idx : ℤ) : ifErrKey idx ≠ sysUpTimeOid :=
  string_append_ne_short _ _ _ (by decide)

theorem ifDiscKey_ne_sysUpTimeOid (idx : ℤ) : ifDiscKey idx ≠ sysUpTimeOid :=
  string_append_ne_short _ _ _ (by decide)

theorem fanKey_ne_sysUpTimeOid (idx : ℤ) : fanKey idx ≠ sysUpTimeOid :=
  string_append_ne_short _ _ _ (by decide)

theorem psuKey_ne_sysUpTimeOid (idx : ℤ) : psuKey idx ≠ sysUpTimeOid :=
  string_append_ne_short _ _ _ (by decide)

/-- `simCpuOid` lives under `...13.1`; the dynamic keys live under `...13.2`
and `...13.3`, so their 23-character heads already differ. -/
theorem ifRateInKey_ne_simCpuOid (idx : ℤ) : ifRateInKey idx ≠ simCpuOid := by
  have h : simCpuOid = ".1.3.6.1.4.1.2021.13.1." ++ "6.0" := by decide
  rw [h]
  exact string_append_ne_of_head_ne _ _ _ _ (by decide) (by decide)

theorem ifRateOutKey_ne_simCpuOid (idx : ℤ) : ifRateOutKey idx ≠ simCpuOid := by
  have h : simCpuOid = ".1.3.6.1.4.1.2021.13.1." ++ "6.0" := by decide
  rw [h]
  exact string_append_ne_of_head_ne _ _ _ _ (by decide) (by decide)

theorem ifErrKey_ne_simCpuOid (idx : ℤ) : ifErrKey idx ≠ simCpuOid :=
  string_append_ne_short _ _ _ (by decide)

theorem ifDiscKey_ne_simCpuOid (idx : ℤ) : ifDiscKey idx ≠ simCpuOid :=
  string_append_ne_short _ _ _ (by decide)

theorem fanKey_ne_simCpuOid (idx : ℤ) : fanKey idx ≠ simCpuOid :=
  string_append_ne_short _ _ _ (by decide)

theorem psuKey_ne_simCpuOid (idx : ℤ) : psuKey idx ≠ simCpuOid :=
  string_append_ne_short _ _ _ (by decide)

/-- The full mutable state of the simulator: entity collections, the typed
value store, the two persistent local gauges of `monitorSystemMetrics`
(`simulatedDeviceCPU`, `simulatedDeviceTemp`), its `lastGCCount`, and the
values of every registered Prometheus metric. -/
structure SimState where
  interfaces : List interfaceData
  fans : List fanData
  psus : List psuData
  oidMap : Store
  simulatedDeviceCPU : ℚ
  simulatedDeviceTemp : ℚ
  lastGCCount : ℕ
  gcCount : ℚ
  memoryUsage : ℚ
  goroutineCount : ℚ
  cpuUsage : ℚ
  uptime : ℚ
  ifInRate : MetricVec
  ifOutRate : MetricVec
  simMemoryUtilPercent : ℚ
  simDeviceTemperatureCelsius : ℚ
  simFanStatus : MetricVec
  simPsuStatus : MetricVec
  simIfInErrorsTotal : MetricVec
  simIfOutDiscardsTotal : MetricVec
  simArpCacheEntries : ℚ
  simMacTableEntries : ℚ
  simActiveTcpConnections : ℚ
deriving DecidableEq, Repr

/-- The `rand.Intn` draws consumed by one fast tick.  A field `r` standing
for `rand.Intn(n)` is used as `r % n`, so any natural number is a valid
draw. `fanRoll i` / `psuRoll i` are the draws for the entity at position
`i` of its slice. -/
structure FastRand where
  cpuRoll : ℕ
  tempRoll : ℕ
  fanRoll : ℕ → ℕ
  psuRoll : ℕ → ℕ
  arpRoll : ℕ
  macRoll : ℕ
  tcpRoll : ℕ

/-- The environment read by one fast tick: the ticker timestamp
(`currentTime`, seconds), `memStats.Alloc`, `memStats.NumGC`,
`runtime.NumGoroutine()` and `time.Since(startTime).Seconds()`. -/
structure FastEnv where
  now : ℚ
  alloc : ℕ
  numGC : ℕ
  numGoroutine : ℕ
  sinceStart : ℚ

/-- The `rand.Intn` draws consumed by one slow tick, per interface position. -/
structure SlowRand where
  inRoll : ℕ → ℕ
  outRoll : ℕ → ℕ
  errRoll : ℕ → ℕ
  errInc : ℕ → ℕ
  discInc : ℕ → ℕ

/-- `simulatedTotalMemoryBytes = 512 * 1024 * 1024`. -/
def simulatedTotalMemoryBytes : ℚ := 536870912

/-- CPU clamping from the fast tick: floor 5 first, then ceiling 90. -/
def clampCpu (x : ℚ) : ℚ := if x < 5 then 5 else if x > 90 then 90 else x

/-- Temperature clamping from the fast tick: floor 20, then ceiling 75. -/
def clampTemp (x : ℚ) : ℚ := if x < 20 then 20 else if x > 75 then 75 else x

/-- Memory-utilization clamping from the fast tick: ceiling 95 first, then
floor 10. -/
def clampMem (x : ℚ) : ℚ := if x > 95 then 95 else if x < 10 then 10 else x

theorem clampCpu_mem (x : ℚ) : 5 ≤ clampCpu x ∧ clampCpu x ≤ 90 := by
  unfold clampCpu
  split_ifs with h1 h2 <;> constructor <;> linarith

theorem clampTemp_mem (x : ℚ) : 20 ≤ clampTemp x ∧ clampTemp x ≤ 75 := by
  unfold clampTemp
  split_ifs with h1 h2 <;> constructor <;> linarith

theorem clampMem_mem (x : ℚ) : 10 ≤ clampMem x ∧ clampMem x ≤ 95 := by
  unfold clampMem
  split_ifs with h1 h2 <;> constructor <;> linarith

/-- The interface loop of the fast tick.  For every Up interface whose rate
baseline is strictly in the past it publishes the two derived rates into the
Prometheus rate vectors and writes the two rate OIDs (`Gauge32`) and the two
cumulative error/discard OIDs (`Counter32`, truncated to `uint32`) into the
typed value store; other interfaces are skipped entirely.  The interface
slice itself is only read. -/
def ifacesFastLoop (now : ℚ) :
    List interfaceData → MetricVec → MetricVec → Store → MetricVec × MetricVec × Store
  | [], ri, ro, m => (ri, ro, m)
  | ifc :: rest, ri, ro, m =>
    if ifc.operStatus = 1 ∧ 0 < now - ifc.lastUpdateTime then
      let dt := now - ifc.lastUpdateTime
      let inRateBps := (go64sub ifc.inOctets ifc.lastInOctets : ℚ) / dt
      let outRateBps := (go64sub ifc.outOctets ifc.lastOutOctets : ℚ) / dt
      let ri' := vecSet ri ifc.index inRateBps
      let ro' := vecSet ro ifc.index outRateBps
      let m1 := storeUpsert m (ifRateInKey ifc.index)
        ⟨ifRateInKey ifc.index, .gauge32, .u32 (goU32Q inRateBps)⟩
      let m2 := storeUpsert m1 (ifRateOutKey ifc.index)
        ⟨ifRateOutKey ifc.index, .gauge32, .u32 (goU32Q outRateBps)⟩
      let m3 := storeUpsert m2 (ifErrKey ifc.index)
        ⟨ifErrKey ifc.index, .counter32, .u32 (ifc.inErrors % 4294967296)⟩
      let m4 := storeUpsert m3 (ifDiscKey ifc.index)
        ⟨ifDiscKey ifc.index, .counter32, .u32 (ifc.outDiscards % 4294967296)⟩
      ifacesFastLoop now rest ri' ro' m4
    else ifacesFastLoop now rest ri ro m

/-- One fan of the fast-tick fan loop: with probability `1/200` flip
normal↔failed (`status == 1 ? 2 : 1`). -/
def fanFlip (roll : ℕ) (f : fanData) : fanData :=
  if roll % 200 = 0 then { f with status := if f.status = 1 then 2 else 1 } else f

/-- The flip applied to a PSU that is not pinned: `1 → 2`, `2 → 1`, anything
else (NotPresent) untouched. -/
def psuFlip (st : ℤ) : ℤ := if st = 1 then 2 else if st = 2 then 1 else st

/-- One PSU of the fast-tick PSU loop: the permanently faulty `"PSU2_SLOT1"`
is excluded; otherwise with probability `1/500` apply `psuFlip`. -/
def psuStep (roll : ℕ) (p : psuData) : psuData :=
  if p.descr ≠ "PSU2_SLOT1" ∧ roll % 500 = 0 then { p with status := psuFlip p.status } else p

/-- The fan loop of the fast tick: flip (maybe), publish the status gauge,
write the status OID (`Integer`). -/
def fansLoop (roll : ℕ → ℕ) (i : ℕ) :
    List fanData → MetricVec → Store → List fanData × MetricVec × Store
  | [], fm, m => ([], fm, m)
  | f :: rest, fm, m =>
    let f' := fanFlip (roll i) f
    let fm' := vecSet fm f'.index (f'.status : ℚ)
    let m' := storeUpsert m (fanKey f'.index) ⟨fanKey f'.index, .integer, .i32 f'.status⟩
    let r := fansLoop roll (i + 1) rest fm' m'
    (f' :: r.1, r.2)

/-- The PSU loop of the fast tick. -/
def psusLoop (roll : ℕ → ℕ) (i : ℕ) :
    List psuData → MetricVec → Store → List psuData × MetricVec × Store
  | [], pm, m => ([], pm, m)
  | p :: rest, pm, m =>
    let p' := psuStep (roll i) p
    let pm' := vecSet pm p'.index (p'.status : ℚ)
    let m' := storeUpsert m (psuKey p'.index) ⟨psuKey p'.index, .integer, .i32 p'.status⟩
    let r := psusLoop roll (i + 1) rest pm' m'
    (p' :: r.1, r.2)

/-- One iteration of the `monitorSystemMetrics` ticker loop (the fast tick). -/
def monitorTick (s : SimState) (r : FastRand) (e : FastEnv) : SimState :=
  let gcUp := e.numGC > s.lastGCCount
  let lastGC' := if gcUp then e.numGC else s.lastGCCount
  let gcCount' := if gcUp then s.gcCount + ((e.numGC - s.lastGCCount : ℕ) : ℚ) else s.gcCount
  let cpu' := clampCpu (s.simulatedDeviceCPU + (((r.cpuRoll % 11 : ℕ) : ℚ) - 5))
  let memUtil := clampMem ((e.alloc : ℚ) / simulatedTotalMemoryBytes * 100)
  let temp' := clampTemp (s.simulatedDeviceTemp + (((r.tempRoll % 5 : ℕ) : ℚ) - 2))
  let ifr := ifacesFastLoop e.now s.interfaces s.ifInRate s.ifOutRate s.oidMap
  let fr := fansLoop r.fanRoll 0 s.fans s.simFanStatus ifr.2.2
  let pr := psusLoop r.psuRoll 0 s.psus s.simPsuStatus fr.2.2
  let arpEntriesVal := r.arpRoll % 450 + 50
  let macEntriesVal := r.macRoll % 900 + 100
  let tcpConnectionsVal := r.tcpRoll % 280 + 20
  let m4 := updateOidValue pr.2.2 simGoroutinesOid (.u32 (e.numGoroutine % 4294967296))
  let m5 := updateOidValue m4 simGcCountOid (.u32 (e.numGC % 4294967296))
  let m6 := updateOidValue m5 simMemoryMBOid (.u32 (e.alloc / 1024 / 1024 % 4294967296))
  let m7 := updateOidValue m6 simUptimeSecOid (.u32 (goU32Q (e.sinceStart * 100)))
  let m8 := updateOidValue m7 simCpuOid (.u32 (goU32Q cpu'))
  let m9 := updateOidValue m8 simMemUtilOid (.u32 (goU32Q memUtil))
  let m10 := updateOidValue m9 simTempOid (.i32 (goI32Q temp'))
  let m11 := updateOidValue m10 simArpOid (.u32 arpEntriesVal)
  let m12 := updateOidValue m11 simMacOid (.u32 macEntriesVal)
  let m13 := updateOidValue m12 simTcpOid (.u32 tcpConnectionsVal)
  { s with
    lastGCCount := lastGC'
    gcCount := gcCount'
    memoryUsage := (e.alloc : ℚ)
    goroutineCount := (e.numGoroutine : ℚ)
    uptime := s.uptime + 1
    simulatedDeviceCPU := cpu'
    cpuUsage := cpu'
    simMemoryUtilPercent := memUtil
    simulatedDeviceTemp := temp'
    simDeviceTemperatureCelsius := temp'
    ifInRate := ifr.1
    ifOutRate := ifr.2.1
    fans := fr.1
    simFanStatus := fr.2.1
    psus := pr.1
    simPsuStatus := pr.2.1
    simArpCacheEntries := (arpEntriesVal : ℚ)
    simMacTableEntries := (macEntriesVal : ℚ)
    simActiveTcpConnections := (tcpConnectionsVal : ℚ)
    oidMap := m13 }

/-- Interface update of one slow tick at slice position `i`: for an Up
interface, first move the current cumulative octets and the current time into
the rate baseline, then add the random traffic increments (scaled by the
slice position), and with probability `2/100` add the error/discard
increments, mirroring them into the Prometheus counter vectors. -/
def slowIfLoop (r : SlowRand) (now : ℚ) (i : ℕ) :
    List interfaceData → MetricVec → MetricVec → List interfaceData × MetricVec × MetricVec
  | [], em, dm => ([], em, dm)
  | ifc :: rest, em, dm =>
    if ifc.operStatus = 1 then
      let base := { ifc with
        lastInOctets := ifc.inOctets
        lastOutOctets := ifc.outOctets
        lastUpdateTime := now
        inOctets := (ifc.inOctets + (r.inRoll i % 20000 + 10000 + 1000 * i)) % 18446744073709551616
        outOctets := (ifc.outOctets + (r.outRoll i % 30000 + 15000 + 2000 * i)) % 18446744073709551616 }
      if r.errRoll i % 100 < 2 then
        let newInErrors := r.errInc i % 3 + 1
        let newOutDiscards := r.discInc i % 2 + 1
        let ifc' := { base with
          inErrors := (base.inErrors + newInErrors) % 18446744073709551616
          outDiscards := (base.outDiscards + newOutDiscards) % 18446744073709551616 }
        let em' := vecAdd em ifc.index (newInErrors : ℚ)
        let dm' := vecAdd dm ifc.index (newOutDiscards : ℚ)
        let rec' := slowIfLoop r now (i + 1) rest em' dm'
        (ifc' :: rec'.1, rec'.2)
      else
        let rec' := slowIfLoop r now (i + 1) rest em dm
        (base :: rec'.1, rec'.2)
    else
      let rec' := slowIfLoop r now (i + 1) rest em dm
      (ifc :: rec'.1, rec'.2)

/-- The sysUpTime advance of one slow tick: read the stored `uint32`, add
`counterIncrementInterval.Seconds() * 100 = 500` time-ticks with Go `uint32`
wrap-around, and store it back.  (The `pdu.Value.(uint32)` type assertion
cannot fail on this key, whose value is always a `uint32`.) -/
def slowOidUpdate (m : Store) : Store :=
  match storeFind m sysUpTimeOid with
  | some pdu =>
    match pdu.value with
    | .u32 v => storeUpsert m sysUpTimeOid ⟨pdu.name, pdu.type, .u32 ((v + 500) % 4294967296)⟩
    | _ => m
  | none => m

/-- One iteration of the `incrementCounters` ticker loop (the slow tick). -/
def incrementTick (s : SimState) (r : SlowRand) (now : ℚ) : SimState :=
  let res := slowIfLoop r now 0 s.interfaces s.simIfInErrorsTotal s.simIfOutDiscardsTotal
  { s with
    interfaces := res.1
    simIfInErrorsTotal := res.2.1
    simIfOutDiscardsTotal := res.2.2
    oidMap := slowOidUpdate s.oidMap }

/-- One tick of either background task. -/
inductive Tick where
  | fast (r : FastRand) (e : FastEnv)
  | slow (r : SlowRand) (now : ℚ)

/-- Is this a fast tick? -/
def Tick.isFast : Tick → Bool
  | .fast _ _ => true
  | .slow _ _ => false

/-- Apply one tick. -/
def step (s : SimState) : Tick → SimState
  | .fast r e => monitorTick s r e
  | .slow r now => incrementTick s r now

/-- Run a list of ticks in order. -/
def run (s : SimState) : List Tick → SimState
  | [] => s
  | t :: ts => run (step s t) ts

@[simp] theorem run_nil (s : SimState) : run s [] = s := rfl

@[simp] theorem run_cons (s : SimState) (t : Tick) (ts : List Tick) :
    run s (t :: ts) = run (step s t) ts := rfl

/-- The random draws consumed by process initialization (initial octet
counts, initial CPU/temperature, initial OID values), plus the start
timestamp of the interfaces' rate baseline. -/
structure InitRand where
  t0 : ℚ
  in1 : ℕ
  out1 : ℕ
  in2 : ℕ
  out2 : ℕ
  in5 : ℕ
  out5 : ℕ
  cpu0 : ℕ
  temp0 : ℕ
  sysUp0 : ℕ
  gor0 : ℕ
  tempOid0 : ℕ
  arp0 : ℕ
  mac0 : ℕ
  tcp0 : ℕ

/-- The five statically configured interfaces (Go zero values for the fields
the literal omits; `rand.Intn` octet draws for the Up interfaces). -/
def initInterfaces (ir : InitRand) : List interfaceData :=
  [ ⟨1, "GigabitEthernet1/0/1", 1, 1, ir.in1 % 100000, ir.out1 % 200000, 0, 0, ir.t0, 0, 0⟩,
    ⟨2, "GigabitEthernet1/0/2", 1, 1, ir.in2 % 150000, ir.out2 % 250000, 0, 0, ir.t0, 0, 0⟩,
    ⟨3, "GigabitEthernet1/0/3", 1, 2, 0, 0, 0, 0, ir.t0, 0, 0⟩,
    ⟨4, "GigabitEthernet1/0/4", 2, 2, 0, 0, 0, 0, ir.t0, 0, 0⟩,
    ⟨5, "Ten-GigabitEthernet1/0/1", 1, 1, ir.in5 % 1000000, ir.out5 % 2000000, 0, 0, ir.t0, 0, 0⟩ ]

/-- The statically configured fans. -/
def initFans : List fanData :=
  [ ⟨1, "FAN1_SLOT1", 1⟩, ⟨2, "FAN2_SLOT1", 1⟩ ]

/-- The statically configured PSUs; `"PSU2_SLOT1"` is the pinned faulty one. -/
def initPsus : List psuData :=
  [ ⟨1, "PSU1_SLOT1", 1⟩, ⟨2, "PSU2_SLOT1", 2⟩ ]

/-- The initial `oidMap` literal. -/
def initOidMap (ir : InitRand) : Store :=
  [ (sysDescrOid, ⟨sysDescrOid, .octetString,
      .bytes "H3C S5120-52P-SI Switch Software Version 5.20, Release 1115P01 (Simulated)"⟩),
    (sysUpTimeOid, ⟨sysUpTimeOid, .timeTicks, .u32 (ir.sysUp0 % 1000000 + 12345000)⟩),
    (sysNameOid, ⟨sysNameOid, .octetString, .bytes "H3C-Simulated-Switch-01"⟩),
    (ifNumberOid, ⟨ifNumberOid, .integer, .i32 5⟩),
    (simVersionOid, ⟨simVersionOid, .octetString, .bytes "1.1.0"⟩),
    (simGoroutinesOid, ⟨simGoroutinesOid, .gauge32, .u32 (ir.gor0 % 4294967296)⟩),
    (simGcCountOid, ⟨simGcCountOid, .counter32, .u32 0⟩),
    (simMemoryMBOid, ⟨simMemoryMBOid, .gauge32, .u32 0⟩),
    (simUptimeSecOid, ⟨simUptimeSecOid, .timeTicks, .u32 0⟩),
    (simCpuOid, ⟨simCpuOid, .gauge32, .u32 0⟩),
    (simMemUtilOid, ⟨simMemUtilOid, .gauge32, .u32 0⟩),
    (simTempOid, ⟨simTempOid, .integer, .i32 (ir.tempOid0 % 40 + 25)⟩),
    (simArpOid, ⟨simArpOid, .gauge32, .u32 (ir.arp0 % 200 + 50)⟩),
    (simMacOid, ⟨simMacOid, .gauge32, .u32 (ir.mac0 % 500 + 100)⟩),
    (simTcpOid, ⟨simTcpOid, .gauge32, .u32 (ir.tcp0 % 100 + 20)⟩) ]

/-- The process state right after `init`/global initialization, before either
ticker has fired: entities and `oidMap` as configured, every Prometheus
metric at its registration default (0 / empty vector), and the two local
gauges of `monitorSystemMetrics` at their random initial draws
(`rand.Intn(30) + 10` and `rand.Intn(41) + 25`). -/
def initState (ir : InitRand) : SimState where
  interfaces := initInterfaces ir
  fans := initFans
  psus := initPsus
  oidMap := initOidMap ir
  simulatedDeviceCPU := ((ir.cpu0 % 30 + 10 : ℕ) : ℚ)
  simulatedDeviceTemp := ((ir.temp0 % 41 + 25 : ℕ) : ℚ)
  lastGCCount := 0
  gcCount := 0
  memoryUsage := 0
  goroutineCount := 0
  cpuUsage := 0
  uptime := 0
  ifInRate := []
  ifOutRate := []
  simMemoryUtilPercent := 0
  simDeviceTemperatureCelsius := 0
  simFanStatus := []
  simPsuStatus := []
  simIfInErrorsTotal := []
  simIfOutDiscardsTotal := []
  simArpCacheEntries := 0
  simMacTableEntries := 0
  simActiveTcpConnections := 0

/-- P of C1: the three simulated device gauges are inside their clamping
bounds. -/
def gaugesInBounds (s : SimState) : Prop :=
  5 ≤ s.cpuUsage ∧ s.cpuUsage ≤ 90
    ∧ 20 ≤ s.simDeviceTemperatureCelsius ∧ s.simDeviceTemperatureCelsius ≤ 75
    ∧ 10 ≤ s.simMemoryUtilPercent ∧ s.simMemoryUtilPercent ≤ 95

instance (s : SimState) : Decidable (gaugesInBounds s) := by
  unfold gaugesInBounds
  infer_instance

theorem monitorTick_cpuUsage (s : SimState) (r : FastRand) (e : FastEnv) :
    (monitorTick s r e).cpuUsage
      = clampCpu (s.simulatedDeviceCPU + (((r.cpuRoll % 11 : ℕ) : ℚ) - 5)) := rfl

theorem monitorTick_temperature (s : SimState) (r : FastRand) (e : FastEnv) :
    (monitorTick s r e).simDeviceTemperatureCelsius
      = clampTemp (s.simulatedDeviceTemp + (((r.tempRoll % 5 : ℕ) : ℚ) - 2)) := rfl

theorem monitorTick_memUtil (s : SimState) (r : FastRand) (e : FastEnv) :
    (monitorTick s r e).simMemoryUtilPercent
      = clampMem ((e.alloc : ℚ) / simulatedTotalMemoryBytes * 100) := rfl

theorem monitorTick_gauges (s : SimState) (r : FastRand) (e : FastEnv) :
    gaugesInBounds (monitorTick s r e) := by
  refine ⟨?_, ?_, ?_, ?_, ?_, ?_⟩
  · rw [monitorTick_cpuUsage]
    exact (clampCpu_mem _).1
  · rw [monitorTick_cpuUsage]
    exact (clampCpu_mem _).2
  · rw [monitorTick_temperature]
    exact (clampTemp_mem _).1
  · rw [monitorTick_temperature]
    exact (clampTemp_mem _).2
  · rw [monitorTick_memUtil]
    exact (clampMem_mem _).1
  · rw [monitorTick_memUtil]
    exact (clampMem_mem _).2

theorem incrementTick_gauges_eq (s : SimState) (r : SlowRand) (now : ℚ) :
    (incrementTick s r now).cpuUsage = s.cpuUsage
      ∧ (incrementTick s r now).simDeviceTemperatureCelsius = s.simDeviceTemperatureCelsius
      ∧ (incrementTick s r now).simMemoryUtilPercent = s.simMemoryUtilPercent :=
  ⟨rfl, rfl, rfl⟩

theorem run_slowOnly_gauges (ts : List Tick) :
    ∀ s : SimState, (∀ t ∈ ts, t.isFast = false) → gaugesInBounds s
      → gaugesInBounds (run s ts) := by
  induction ts with
  | nil => intro s _ hs; exact hs
  | cons t rest ih =>
    intro s hall hs
    rw [run_cons]
    refine ih (step s t) (fun t' ht' => hall t' (List.mem_cons_of_mem _ ht')) ?_
    cases t with
    | fast r e => simp [Tick.isFast] at hall
    | slow r now =>
      obtain ⟨h1, h2, h3⟩ := incrementTick_gauges_eq s r now
      unfold gaugesInBounds
      rw [step]
      rw [h1, h2, h3]
      exact hs

theorem run_hasFast_gauges (ts : List Tick) :
    ∀ s : SimState, (∃ t ∈ ts, t.isFast = true) → gaugesInBounds (run s ts) := by
  induction ts with
  | nil => intro s h; simp at h
  | cons t rest ih =>
    intro s h
    by_cases hr : ∃ t' ∈ rest, t'.isFast = true
    · exact ih (step s t) hr
    · have ht : t.isFast = true := by
        rcases h with ⟨t', ht', hf⟩
        rcases List.mem_cons.mp ht' with h1 | h1
        · rw [← h1]; exact hf
        · exact absurd ⟨t', h1, hf⟩ hr
      cases t with
      | slow r now => simp [Tick.isFast] at ht
      | fast r e =>
        rw [run_cons]
        refine run_slowOnly_gauges rest (step s (.fast r e)) ?_ ?_
        · intro t' ht'
          by_contra hf
          exact hr ⟨t', ht', by simpa using hf⟩
        · exact monitorTick_gauges s r e

/-- C1: after any tick sequence containing at least one fast tick, the
simulated device gauges published by that tick and every later one stay in
their clamping bounds: CPU% in `[5, 90]`, temperature in `[20, 75]`,
memory-utilization% in `[10, 95]`. -/
theorem fastTick_gauge_bounds (ir : InitRand) (ts : List Tick)
    (h : ∃ t ∈ ts, t.isFast = true) :
    gaugesInBounds (run (initState ir) ts) :=
  run_hasFast_gauges ts (initState ir) h

/-- All-zero initialization draws (with start time 0). -/
def ir0 : InitRand := ⟨0, 0, 0, 0, 0, 0, 0, 0, 0, 0, 0, 0, 0, 0, 0⟩

/-- A concrete fast tick: no health flips (every roll nonzero mod its bound),
clock at 1 s, 256 MiB allocated. -/
def fr0 : FastRand := ⟨3, 1, fun _ => 1, fun _ => 1, 0, 0, 0⟩

/-- Environment of the concrete fast tick. -/
def fe0 : FastEnv := ⟨1, 268435456, 0, 7, 1⟩

/-- A concrete slow tick randomness: no error/discard draws hit. -/
def sr0 : SlowRand := ⟨fun _ => 0, fun _ => 0, fun _ => 5, fun _ => 0, fun _ => 0⟩

/-- C1 witness: a single concrete fast tick from the initial state. -/
theorem fastTick_gauge_bounds_witness :
    (∃ t ∈ [Tick.fast fr0 fe0], t.isFast = true)
      ∧ gaugesInBounds (run (initState ir0) [Tick.fast fr0 fe0]) :=
  ⟨⟨Tick.fast fr0 fe0, List.mem_singleton_self _, rfl⟩,
    fastTick_gauge_bounds ir0 [Tick.fast fr0 fe0]
      ⟨Tick.fast fr0 fe0, List.mem_singleton_self _, rfl⟩⟩

theorem clampMem_eq_interior (x v : ℚ) (h10 : 10 < v) (h95 : v < 95)
    (h : clampMem x = v) : x = v := by
  unfold clampMem at h
  split_ifs at h <;> linarith

/-- C5 counterexample: the fast tick's memory-utilization update is not a
random walk on the previous value.  For the concrete tick `(fr0, fe0)` (256
MiB allocated) there is no delta `d` — however it might be drawn — such that
the new value is `clampMem (previous + d)`: the code recomputes the gauge
from `memStats.Alloc` alone and ignores the previous value, so previous
values 40 and 60 both map to 50. -/
theorem memUtil_not_random_walk :
    ¬ ∃ d : ℚ, ∀ mPrev : ℚ,
      (monitorTick { initState ir0 with simMemoryUtilPercent := mPrev } fr0 fe0).simMemoryUtilPercent
        = clampMem (mPrev + d) := by
  rintro ⟨d, hd⟩
  have h40 := hd 40
  have h60 := hd 60
  rw [monitorTick_memUtil] at h40 h60
  have hv : ((fe0.alloc : ℚ) / simulatedTotalMemoryBytes * 100) = 50 := by
    norm_num [fe0, simulatedTotalMemoryBytes]
  have h50 : clampMem 50 = 50 := by norm_num [clampMem]
  rw [hv, h50] at h40 h60
  have e40 := clampMem_eq_interior _ _ (by norm_num) (by norm_num) h40.symm
  have e60 := clampMem_eq_interior _ _ (by norm_num) (by norm_num) h60.symm
  linarith

/-- C5 amended: on every fast tick, memory utilization is recomputed from the
environment's currently allocated bytes as `alloc / (512 MiB) * 100` and
clamped to `[10, 95]`; it does not depend on the previous gauge value (the
pre-state is arbitrary in this statement). -/
theorem memUtil_recomputed_from_alloc (s : SimState) (r : FastRand) (e : FastEnv) :
    (monitorTick s r e).simMemoryUtilPercent
        = clampMem ((e.alloc : ℚ) / simulatedTotalMemoryBytes * 100)
      ∧ 10 ≤ (monitorTick s r e).simMemoryUtilPercent
      ∧ (monitorTick s r e).simMemoryUtilPercent ≤ 95 := by
  refine ⟨monitorTick_memUtil s r e, ?_, ?_⟩
  · rw [monitorTick_memUtil]
    exact (clampMem_mem _).1
  · rw [monitorTick_memUtil]
    exact (clampMem_mem _).2

/-- The immutable identity of an interface: index, description, admin and
oper status — the fields no tick ever writes. -/
def ifaceSig (ifc : interfaceData) : ℤ × String × ℤ × ℤ :=
  (ifc.index, ifc.descr, ifc.adminStatus, ifc.operStatus)

theorem slowIfLoop_sig (r : SlowRand) (now : ℚ) :
    ∀ (l : List interfaceData) (i : ℕ) (em dm : MetricVec),
      ((slowIfLoop r now i l em dm).1).map ifaceSig = l.map ifaceSig := by
  intro l
  induction l with
  | nil => intro i em dm; simp [slowIfLoop]
  | cons ifc rest ih =>
    intro i em dm
    by_cases hup : ifc.operStatus = 1
    · by_cases herr : r.errRoll i % 100 < 2
      · simp [slowIfLoop, hup, herr, ifaceSig, ih]
      · simp [slowIfLoop, hup, herr, ifaceSig, ih]
    · simp [slowIfLoop, hup, ih]

theorem slowIfLoop_down (r : SlowRand) (now : ℚ) :
    ∀ (l : List interfaceData) (i : ℕ) (em dm : MetricVec) (p : ℕ) (ifc : interfaceData),
      l.get? p = some ifc → ifc.operStatus ≠ 1
      → ((slowIfLoop r now i l em dm).1).get? p = some ifc := by
  intro l
  induction l with
  | nil => intro i em dm p ifc h _; simp at h
  | cons hd rest ih =>
    intro i em dm p ifc h hdown
    cases p with
    | zero =>
      simp only [List.get?] at h
      injection h with h
      subst h
      simp [slowIfLoop, hdown]
    | succ p =>
      simp only [List.get?] at h
      by_cases hup : hd.operStatus = 1
      · by_cases herr : r.errRoll i % 100 < 2
        · simp only [slowIfLoop, if_pos hup, if_pos herr, List.get?]
          exact ih (i + 1) _ _ p ifc h hdown
        · simp only [slowIfLoop, if_pos hup, if_neg herr, List.get?]
          exact ih (i + 1) _ _ p ifc h hdown
      · simp only [slowIfLoop, if_neg hup, List.get?]
        exact ih (i + 1) _ _ p ifc h hdown

theorem slowOidUpdate_find_ne (m : Store) (k : String) (h : k ≠ sysUpTimeOid) :
    storeFind (slowOidUpdate m) k = storeFind m k := by
  unfold slowOidUpdate
  cases hf : storeFind m sysUpTimeOid with
  | none => rfl
  | some pdu =>
    obtain ⟨nm, ty, val⟩ := pdu
    cases val <;> simp [h]

/-- C8: one slow tick never touches gauges, health status or app runtime
metrics.  It changes only the Up interfaces' cumulative counters and rate
baselines, the error/discard Prometheus counters, and the sysUpTime store
entry: the fans, PSUs, every gauge (CPU, temperature, memory, ARP, MAC,
connections, fan/PSU status, rates) and the app-runtime metrics (GC count,
memory usage, goroutine count, uptime counter) are identical afterwards, the
interfaces keep their identity fields, Down interfaces are untouched
entirely, and every store key other than `sysUpTimeOid` is unchanged. -/
theorem slow_cycle_frame (s : SimState) (r : SlowRand) (now : ℚ) :
    (incrementTick s r now).fans = s.fans
      ∧ (incrementTick s r now).psus = s.psus
      ∧ (incrementTick s r now).simFanStatus = s.simFanStatus
      ∧ (incrementTick s r now).simPsuStatus = s.simPsuStatus
      ∧ (incrementTick s r now).cpuUsage = s.cpuUsage
      ∧ (incrementTick s r now).simulatedDeviceCPU = s.simulatedDeviceCPU
      ∧ (incrementTick s r now).simDeviceTemperatureCelsius = s.simDeviceTemperatureCelsius
      ∧ (incrementTick s r now).simulatedDeviceTemp = s.simulatedDeviceTemp
      ∧ (incrementTick s r now).simMemoryUtilPercent = s.simMemoryUtilPercent
      ∧ (incrementTick s r now).simArpCacheEntries = s.simArpCacheEntries
      ∧ (incrementTick s r now).simMacTableEntries = s.simMacTableEntries
      ∧ (incrementTick s r now).simActiveTcpConnections = s.simActiveTcpConnections
      ∧ (incrementTick s r now).ifInRate = s.ifInRate
      ∧ (incrementTick s r now).ifOutRate = s.ifOutRate
      ∧ (incrementTick s r now).gcCount = s.gcCount
      ∧ (incrementTick s r now).lastGCCount = s.lastGCCount
      ∧ (incrementTick s r now).memoryUsage = s.memoryUsage
      ∧ (incrementTick s r now).goroutineCount = s.goroutineCount
      ∧ (incrementTick s r now).uptime = s.uptime
      ∧ ((incrementTick s r now).interfaces).map ifaceSig = (s.interfaces).map ifaceSig
      ∧ (∀ (p : ℕ) (ifc : interfaceData), (s.interfaces).get? p = some ifc
          → ifc.operStatus ≠ 1 → ((incrementTick s r now).interfaces).get? p = some ifc)
      ∧ (∀ k : String, k ≠ sysUpTimeOid
          → storeFind ((incrementTick s r now).oidMap) k = storeFind s.oidMap k) := by
  refine ⟨rfl, rfl, rfl, rfl, rfl, rfl, rfl, rfl, rfl, rfl, rfl, rfl, rfl, rfl, rfl,
    rfl, rfl, rfl, rfl, ?_, ?_, ?_⟩
  · exact slowIfLoop_sig r now s.interfaces 0 _ _
  · intro p ifc h hdown
    exact slowIfLoop_down r now s.interfaces 0 _ _ p ifc h hdown
  · intro k hk
    exact slowOidUpdate_find_ne s.oidMap k hk

/-- C8 witness: a concrete slow tick on the initial state; the Down interface
at position 2 and the `sysDescr` store entry are untouched. -/
theorem slow_cycle_frame_witness :
    (incrementTick (initState ir0) sr0 7).fans = (initState ir0).fans
      ∧ ((incrementTick (initState ir0) sr0 7).interfaces).get? 2
          = some ⟨3, "GigabitEthernet1/0/3", 1, 2, 0, 0, 0, 0, 0, 0, 0⟩
      ∧ storeFind ((incrementTick (initState ir0) sr0 7).oidMap) sysDescrOid
          = storeFind ((initState ir0).oidMap) sysDescrOid := by
  refine ⟨(slow_cycle_frame (initState ir0) sr0 7).1, ?_, ?_⟩
  · exact (slow_cycle_frame (initState ir0) sr0 7).2.2.2.2.2.2.2.2.2.2.2.2.2.2.2.2.2.2.2.2.1
      2 ⟨3, "GigabitEthernet1/0/3", 1, 2, 0, 0, 0, 0, 0, 0, 0⟩ (by decide) (by decide)
  · exact (slow_cycle_frame (initState ir0) sr0 7).2.2.2.2.2.2.2.2.2.2.2.2.2.2.2.2.2.2.2.2.2
      sysDescrOid (by decide)

theorem ifacesFastLoop_fst_ne (now : ℚ) :
    ∀ (l : List interfaceData) (ri ro : MetricVec) (m : Store) (idx : ℤ),
      (∀ ifc ∈ l, ifc.operStatus = 1 → ifc.index ≠ idx)
      → vecFind (ifacesFastLoop now l ri ro m).1 idx = vecFind ri idx
        ∧ vecFind (ifacesFastLoop now l ri ro m).2.1 idx = vecFind ro idx := by
  intro l
  induction l with
  | nil => intro ri ro m idx _; exact ⟨rfl, rfl⟩
  | cons hd rest ih =>
    intro ri ro m idx h
    have hrest : ∀ ifc ∈ rest, ifc.operStatus = 1 → ifc.index ≠ idx :=
      fun ifc hm => h ifc (List.mem_cons_of_mem hd hm)
    by_cases hc : hd.operStatus = 1 ∧ 0 < now - hd.lastUpdateTime
    · have hhd : hd.index ≠ idx := h hd (List.mem_cons_self hd rest) hc.1
      simp only [ifacesFastLoop, if_pos hc]
      obtain ⟨e1, e2⟩ := ih _ _ _ idx hrest
      rw [e1, e2]
      exact ⟨vecFind_set_ne _ _ _ _ (Ne.symm hhd), vecFind_set_ne _ _ _ _ (Ne.symm hhd)⟩
    · simp only [ifacesFastLoop, if_neg hc]
      exact ih _ _ _ idx hrest

theorem ifacesFastLoop_rate_at (now : ℚ) :
    ∀ (l : List interfaceData) (ri ro : MetricVec) (m : Store) (p : ℕ) (ifc : interfaceData),
      l.get? p = some ifc → ifc.operStatus = 1 → 0 < now - ifc.lastUpdateTime
      → (l.map interfaceData.index).Nodup
      → vecFind (ifacesFastLoop now l ri ro m).1 ifc.index
          = some ((go64sub ifc.inOctets ifc.lastInOctets : ℚ) / (now - ifc.lastUpdateTime))
        ∧ vecFind (ifacesFastLoop now l ri ro m).2.1 ifc.index
          = some ((go64sub ifc.outOctets ifc.lastOutOctets : ℚ) / (now - ifc.lastUpdateTime)) := by
  intro l
  induction l with
  | nil => intro ri ro m p ifc h; simp at h
  | cons hd rest ih =>
    intro ri ro m p ifc h hup hdt hnd
    have hnd' : (rest.map interfaceData.index).Nodup := (List.nodup_cons.mp hnd).2
    cases p with
    | zero =>
      simp only [List.get?] at h
      injection h with h
      subst h
      simp only [ifacesFastLoop, if_pos (And.intro hup hdt)]
      have hni : ∀ ifc2 ∈ rest, ifc2.operStatus = 1 → ifc2.index ≠ hd.index := by
        intro ifc2 hm _ heq
        exact (List.nodup_cons.mp hnd).1 (heq ▸ List.mem_map_of_mem interfaceData.index hm)
      obtain ⟨e1, e2⟩ := ifacesFastLoop_fst_ne now rest _ _ _ hd.index hni
      rw [e1, e2]
      exact ⟨vecFind_set_self _ _ _, vecFind_set_self _ _ _⟩
    | succ p =>
      simp only [List.get?] at h
      by_cases hc : hd.operStatus = 1 ∧ 0 < now - hd.lastUpdateTime
      · simp only [ifacesFastLoop, if_pos hc]
        exact ih _ _ _ p ifc h hup hdt hnd'
      · simp only [ifacesFastLoop, if_neg hc]
        exact ih _ _ _ p ifc h hup hdt hnd'

theorem monitorTick_ifInRate (s : SimState) (r : FastRand) (e : FastEnv) :
    (monitorTick s r e).ifInRate
      = (ifacesFastLoop e.now s.interfaces s.ifInRate s.ifOutRate s.oidMap).1 := rfl

theorem monitorTick_ifOutRate (s : SimState) (r : FastRand) (e : FastEnv) :
    (monitorTick s r e).ifOutRate
      = (ifacesFastLoop e.now s.interfaces s.ifInRate s.ifOutRate s.oidMap).2.1 := rfl

/-- C3: on a fast tick, every Up interface whose rate baseline is strictly in
the past gets its published rates set to
`(current cumulative octets - baseline octets) / secondsSince(baseline)`.
The `uint64` subtraction is the mathematical one as long as the counter has
not wrapped past the baseline (hypotheses `h5`-`h8`), which always holds
between the slow tick that sets the baseline and the next wrap. -/
theorem up_interface_rate (s : SimState) (r : FastRand) (e : FastEnv)
    (p : ℕ) (ifc : interfaceData)
    (h1 : s.interfaces.get? p = some ifc)
    (h2 : ifc.operStatus = 1)
    (h3 : ifc.lastUpdateTime < e.now)
    (h4 : (s.interfaces.map interfaceData.index).Nodup)
    (h5 : ifc.lastInOctets ≤ ifc.inOctets)
    (h6 : ifc.inOctets < 18446744073709551616)
    (h7 : ifc.lastOutOctets ≤ ifc.outOctets)
    (h8 : ifc.outOctets < 18446744073709551616) :
    vecFind (monitorTick s r e).ifInRate ifc.index
        = some (((ifc.inOctets - ifc.lastInOctets : ℕ) : ℚ) / (e.now - ifc.lastUpdateTime))
      ∧ vecFind (monitorTick s r e).ifOutRate ifc.index
        = some (((ifc.outOctets - ifc.lastOutOctets : ℕ) : ℚ) / (e.now - ifc.lastUpdateTime)) := by
  have hdt : 0 < e.now - ifc.lastUpdateTime := by linarith
  obtain ⟨e1, e2⟩ := ifacesFastLoop_rate_at e.now s.interfaces s.ifInRate s.ifOutRate
    s.oidMap p ifc h1 h2 hdt h4
  rw [monitorTick_ifInRate, monitorTick_ifOutRate, e1, e2,
    go64sub_eq _ _ h5 h6, go64sub_eq _ _ h7 h8]
  exact ⟨rfl, rfl⟩

/-- C3 witness: interface at position 0 of the initial state under the
concrete fast tick `(fr0, fe0)`. -/
theorem up_interface_rate_witness :
    ((initState ir0).interfaces.get? 0
        = some ⟨1, "GigabitEthernet1/0/1", 1, 1, 0, 0, 0, 0, 0, 0, 0⟩)
      ∧ vecFind (monitorTick (initState ir0) fr0 fe0).ifInRate 1
        = some (((0 - 0 : ℕ) : ℚ) / (fe0.now - 0)) := by
  constructor
  · decide
  · exact (up_interface_rate (initState ir0) fr0 fe0 0
      ⟨1, "GigabitEthernet1/0/1", 1, 1, 0, 0, 0, 0, 0, 0, 0⟩
      (by decide) (by decide) (by norm_num [fe0]) (by decide)
      (by decide) (by decide) (by decide) (by decide)).1

/-- No Up interface of the list carries the given index. -/
def UpAvoids (idx : ℤ) (l : List interfaceData) : Prop :=
  ∀ ifc ∈ l, ifc.operStatus = 1 → ifc.index ≠ idx

theorem UpAvoids_of_sig_eq (idx : ℤ) (l l' : List interfaceData)
    (hsig : l'.map ifaceSig = l.map ifaceSig) (h : UpAvoids idx l) :
    UpAvoids idx l' := by
  intro ifc' hm hup hidx
  have : ifaceSig ifc' ∈ l.map ifaceSig := by
    rw [← hsig]
    exact List.mem_map_of_mem ifaceSig hm
  rcases List.mem_map.mp this with ⟨ifc, hifc, hse⟩
  unfold ifaceSig at hse
  have hidx' : ifc.index = ifc'.index := congrArg Prod.fst hse
  have hup' : ifc.operStatus = ifc'.operStatus := by
    have := congrArg (fun q => q.2.2.2) hse
    simpa using this
  exact h ifc hifc (hup' ▸ hup) (hidx' ▸ hidx)

theorem monitorTick_interfaces (s : SimState) (r : FastRand) (e : FastEnv) :
    (monitorTick s r e).interfaces = s.interfaces := rfl

/-- The published value of a Prometheus vector sample, with an absent sample
read as 0 (the spec defines the rate of a Down interface to be 0, and the
program indeed never creates a sample for one). -/
def pubVal (v : MetricVec) (idx : ℤ) : ℚ := (vecFind v idx).getD 0

theorem run_down_frozen (ts : List Tick) :
    ∀ (s : SimState) (p : ℕ) (ifc0 : interfaceData),
      s.interfaces.get? p = some ifc0 → ifc0.operStatus ≠ 1
      → UpAvoids ifc0.index s.interfaces
      → vecFind s.ifInRate ifc0.index = none
      → vecFind s.ifOutRate ifc0.index = none
      → (run s ts).interfaces.get? p = some ifc0
        ∧ vecFind (run s ts).ifInRate ifc0.index = none
        ∧ vecFind (run s ts).ifOutRate ifc0.index = none := by
  induction ts with
  | nil => intro s p ifc0 h1 _ _ h4 h5; exact ⟨h1, h4, h5⟩
  | cons t rest ih =>
    intro s p ifc0 h1 h2 h3 h4 h5
    rw [run_cons]
    cases t with
    | fast r e =>
      refine ih (step s (.fast r e)) p ifc0 ?_ h2 ?_ ?_ ?_
      · rw [step, monitorTick_interfaces]; exact h1
      · rw [step, monitorTick_interfaces]; exact h3
      · rw [step, monitorTick_ifInRate]
        rw [(ifacesFastLoop_fst_ne e.now s.interfaces s.ifInRate s.ifOutRate s.oidMap
          ifc0.index h3).1]
        exact h4
      · rw [step, monitorTick_ifOutRate]
        rw [(ifacesFastLoop_fst_ne e.now s.interfaces s.ifInRate s.ifOutRate s.oidMap
          ifc0.index h3).2]
        exact h5
    | slow r now =>
      refine ih (step s (.slow r now)) p ifc0 ?_ h2 ?_ h4 h5
      · exact slowIfLoop_down r now s.interfaces 0 _ _ p ifc0 h1 h2
      · exact UpAvoids_of_sig_eq ifc0.index s.interfaces _
          (slowIfLoop_sig r now s.interfaces 0 _ _) h3

theorem initInterfaces_UpAvoids_3 (ir : InitRand) : UpAvoids 3 (initInterfaces ir) := by
  intro ifc hm hup
  simp only [initInterfaces, List.mem_cons, List.not_mem_nil, or_false] at hm
  rcases hm with rfl | rfl | rfl | rfl | rfl <;> simp_all

theorem initInterfaces_UpAvoids_4 (ir : InitRand) : UpAvoids 4 (initInterfaces ir) := by
  intro ifc hm hup
  simp only [initInterfaces, List.mem_cons, List.not_mem_nil, or_false] at hm
  rcases hm with rfl | rfl | rfl | rfl | rfl <;> simp_all

/-- C2: an interface configured with `operStatus = Down` (2) is completely
frozen: across any number of fast or slow ticks its record — in particular
the cumulative `inOctets`, `outOctets`, `inErrors` and `outDiscards`
counters — never changes, its Prometheus rate samples are never created, and
its published rate (absent sample read as 0, the spec's convention) is 0. -/
theorem down_interface_frozen (ir : InitRand) (ts : List Tick) (p : ℕ)
    (ifc0 : interfaceData)
    (h1 : (initState ir).interfaces.get? p = some ifc0)
    (h2 : ifc0.operStatus = 2) :
    (run (initState ir) ts).interfaces.get? p = some ifc0
      ∧ pubVal (run (initState ir) ts).ifInRate ifc0.index = 0
      ∧ pubVal (run (initState ir) ts).ifOutRate ifc0.index = 0 := by
  have hifc : ifc0.index = 3 ∨ ifc0.index = 4 := by
    have h1' := h1
    simp only [initState, initInterfaces] at h1'
    rcases p with _ | _ | _ | _ | _ | p
    · rw [List.get?] at h1'
      injection h1' with h1'
      rw [← h1'] at h2
      simp at h2
    · rw [List.get?, List.get?] at h1'
      injection h1' with h1'
      rw [← h1'] at h2
      simp at h2
    · rw [List.get?, List.get?, List.get?] at h1'
      injection h1' with h1'
      left
      rw [← h1']
    · rw [List.get?, List.get?, List.get?, List.get?] at h1'
      injection h1' with h1'
      right
      rw [← h1']
    · rw [List.get?, List.get?, List.get?, List.get?, List.get?] at h1'
      injection h1' with h1'
      rw [← h1'] at h2
      simp at h2
    · simp [List.get?] at h1'
  have havoid : UpAvoids ifc0.index (initState ir).interfaces := by
    rcases hifc with h | h <;> rw [h]
    · exact initInterfaces_UpAvoids_3 ir
    · exact initInterfaces_UpAvoids_4 ir
  obtain ⟨c1, c2, c3⟩ := run_down_frozen ts (initState ir) p ifc0 h1
    (by rw [h2]; norm_num) havoid rfl rfl
  refine ⟨c1, ?_, ?_⟩
  · unfold pubVal
    rw [c2]
    rfl
  · unfold pubVal
    rw [c3]
    rfl

/-- C2 witness: the Down interface at position 2 of the initial state, after
one concrete slow tick and one concrete fast tick. -/
theorem down_interface_frozen_witness :
    ((initState ir0).interfaces.get? 2
        = some ⟨3, "GigabitEthernet1/0/3", 1, 2, 0, 0, 0, 0, 0, 0, 0⟩)
      ∧ (run (initState ir0) [Tick.slow sr0 5, Tick.fast fr0 fe0]).interfaces.get? 2
        = some ⟨3, "GigabitEthernet1/0/3", 1, 2, 0, 0, 0, 0, 0, 0, 0⟩
      ∧ pubVal (run (initState ir0) [Tick.slow sr0 5, Tick.fast fr0 fe0]).ifInRate 3 = 0 :=
  ⟨by decide,
    (down_interface_frozen ir0 [Tick.slow sr0 5, Tick.fast fr0 fe0] 2
      ⟨3, "GigabitEthernet1/0/3", 1, 2, 0, 0, 0, 0, 0, 0, 0⟩ (by decide) (by decide)).1,
    (down_interface_frozen ir0 [Tick.slow sr0 5, Tick.fast fr0 fe0] 2
      ⟨3, "GigabitEthernet1/0/3", 1, 2, 0, 0, 0, 0, 0, 0, 0⟩ (by decide) (by decide)).2.1⟩

theorem psuFlip_eq_three_iff (st : ℤ) : psuFlip st = 3 ↔ st = 3 := by
  unfold psuFlip
  split_ifs with h1 h2 <;> constructor <;> intro h <;> omega

theorem fanFlip_status_mem (roll : ℕ) (f : fanData)
    (h : f.status = 1 ∨ f.status = 2) :
    (fanFlip roll f).status = 1 ∨ (fanFlip roll f).status = 2 := by
  unfold fanFlip
  split_ifs with h1 h2 <;> simp_all

theorem psuStep_status_mem (roll : ℕ) (p : psuData)
    (h : p.status = 1 ∨ p.status = 2) :
    (psuStep roll p).status = 1 ∨ (psuStep roll p).status = 2 := by
  unfold psuStep psuFlip
  split_ifs <;> simp_all

theorem psuStep_pinned (roll : ℕ) (p : psuData) (h : p.descr = "PSU2_SLOT1") :
    psuStep roll p = p := by
  unfold psuStep
  rw [if_neg]
  rintro ⟨hne, _⟩
  exact hne h

theorem fansLoop_mem (roll : ℕ → ℕ) :
    ∀ (l : List fanData) (i : ℕ) (fm : MetricVec) (m : Store) (f' : fanData),
      f' ∈ (fansLoop roll i l fm m).1 → ∃ f ∈ l, ∃ j, f' = fanFlip (roll j) f := by
  intro l
  induction l with
  | nil => intro i fm m f' h; simp [fansLoop] at h
  | cons hd rest ih =>
    intro i fm m f' h
    simp only [fansLoop, List.mem_cons] at h
    rcases h with h | h
    · exact ⟨hd, List.mem_cons_self hd rest, i, h⟩
    · rcases ih (i + 1) _ _ f' h with ⟨f, hf, j, hj⟩
      exact ⟨f, List.mem_cons_of_mem hd hf, j, hj⟩

theorem psusLoop_mem (roll : ℕ → ℕ) :
    ∀ (l : List psuData) (i : ℕ) (pm : MetricVec) (m : Store) (p' : psuData),
      p' ∈ (psusLoop roll i l pm m).1 → ∃ p ∈ l, ∃ j, p' = psuStep (roll j) p := by
  intro l
  induction l with
  | nil => intro i pm m p' h; simp [psusLoop] at h
  | cons hd rest ih =>
    intro i pm m p' h
    simp only [psusLoop, List.mem_cons] at h
    rcases h with h | h
    · exact ⟨hd, List.mem_cons_self hd rest, i, h⟩
    · rcases ih (i + 1) _ _ p' h with ⟨p, hp, j, hj⟩
      exact ⟨p, List.mem_cons_of_mem hd hp, j, hj⟩

theorem psusLoop_get (roll : ℕ → ℕ) :
    ∀ (l : List psuData) (i : ℕ) (pm : MetricVec) (m : Store) (pos : ℕ) (p : psuData),
      l.get? pos = some p
      → ((psusLoop roll i l pm m).1).get? pos = some (psuStep (roll (i + pos)) p) := by
  intro l
  induction l with
  | nil => intro i pm m pos p h; simp at h
  | cons hd rest ih =>
    intro i pm m pos p h
    cases pos with
    | zero =>
      simp only [List.get?] at h
      injection h with h
      subst h
      simp [psusLoop, List.get?]
    | succ pos =>
      simp only [List.get?] at h
      simp only [psusLoop, List.get?]
      have := ih (i + 1) (vecSet pm (psuStep (roll i) hd).index ((psuStep (roll i) hd).status : ℚ))
        (storeUpsert m (psuKey (psuStep (roll i) hd).index)
          ⟨psuKey (psuStep (roll i) hd).index, .integer, .i32 (psuStep (roll i) hd).status⟩)
        pos p h
      have hidx : i + 1 + pos = i + (pos + 1) := by omega
      rw [hidx] at this
      exact this

theorem monitorTick_fans (s : SimState) (r : FastRand) (e : FastEnv) :
    (monitorTick s r e).fans
      = (fansLoop r.fanRoll 0 s.fans s.simFanStatus
          (ifacesFastLoop e.now s.interfaces s.ifInRate s.ifOutRate s.oidMap).2.2).1 := rfl

theorem monitorTick_psus (s : SimState) (r : FastRand) (e : FastEnv) :
    (monitorTick s r e).psus
      = (psusLoop r.psuRoll 0 s.psus s.simPsuStatus
          (fansLoop r.fanRoll 0 s.fans s.simFanStatus
            (ifacesFastLoop e.now s.interfaces s.ifInRate s.ifOutRate s.oidMap).2.2).2.2).1 := rfl

/-- Health invariant carried along every trace. -/
def healthInv (s : SimState) : Prop :=
  (∀ f ∈ s.fans, f.status = 1 ∨ f.status = 2)
    ∧ (∀ p ∈ s.psus, p.status = 1 ∨ p.status = 2)
    ∧ s.psus.get? 1 = some ⟨2, "PSU2_SLOT1", 2⟩

theorem healthInv_step (s : SimState) (t : Tick) (h : healthInv s) :
    healthInv (step s t) := by
  obtain ⟨hf, hp, hpin⟩ := h
  cases t with
  | slow r now => exact ⟨hf, hp, hpin⟩
  | fast r e =>
    refine ⟨?_, ?_, ?_⟩
    · rw [step, monitorTick_fans]
      intro f' hm
      rcases fansLoop_mem r.fanRoll s.fans 0 _ _ f' hm with ⟨f, hfm, j, rfl⟩
      exact fanFlip_status_mem _ f (hf f hfm)
    · rw [step, monitorTick_psus]
      intro p' hm
      rcases psusLoop_mem r.psuRoll s.psus 0 _ _ p' hm with ⟨p, hpm, j, rfl⟩
      exact psuStep_status_mem _ p (hp p hpm)
    · rw [step, monitorTick_psus]
      rw [psusLoop_get r.psuRoll s.psus 0 _ _ 1 ⟨2, "PSU2_SLOT1", 2⟩ hpin]
      rw [psuStep_pinned _ _ rfl]

theorem healthInv_run (ts : List Tick) :
    ∀ s : SimState, healthInv s → healthInv (run s ts) := by
  induction ts with
  | nil => intro s h; exact h
  | cons t rest ih => intro s h; exact ih (step s t) (healthInv_step s t h)

/-- C9: the probabilistic health flip only toggles between Normal (1) and
Failed (2).  Along every trace from the initial configuration, every fan and
every PSU status stays in `{1, 2}`; the PSU pinned as permanently faulty
(`"PSU2_SLOT1"`, position 1) is never flipped by any tick; the flip function
itself maps a status to NotPresent (3) only if it already was NotPresent, and
a fast tick moves a PSU into or out of status 3 never — so NotPresent could
only ever come from the initial configuration. -/
theorem health_flip_toggles_only (ir : InitRand) (ts : List Tick) :
    (∀ f ∈ (run (initState ir) ts).fans, f.status = 1 ∨ f.status = 2)
      ∧ (∀ p ∈ (run (initState ir) ts).psus, p.status = 1 ∨ p.status = 2)
      ∧ (run (initState ir) ts).psus.get? 1 = some ⟨2, "PSU2_SLOT1", 2⟩
      ∧ (∀ st : ℤ, psuFlip st = 3 ↔ st = 3)
      ∧ (∀ (s : SimState) (r : FastRand) (e : FastEnv) (pos : ℕ) (p p' : psuData),
          s.psus.get? pos = some p
          → (monitorTick s r e).psus.get? pos = some p'
          → (p'.status = 3 ↔ p.status = 3)) := by
  have hinv : healthInv (run (initState ir) ts) := by
    refine healthInv_run ts (initState ir) ⟨?_, ?_, ?_⟩
    · intro f hm
      simp only [initState, initFans, List.mem_cons, List.not_mem_nil, or_false] at hm
      rcases hm with rfl | rfl <;> simp
    · intro p hm
      simp only [initState, initPsus, List.mem_cons, List.not_mem_nil, or_false] at hm
      rcases hm with rfl | rfl <;> simp
    · rfl
  refine ⟨hinv.1, hinv.2.1, hinv.2.2, psuFlip_eq_three_iff, ?_⟩
  intro s r e pos p p' hget hget'
  rw [monitorTick_psus, psusLoop_get r.psuRoll s.psus 0 _ _ pos p hget] at hget'
  injection hget' with hget'
  rw [← hget']
  unfold psuStep
  split_ifs with hc
  · exact psuFlip_eq_three_iff p.status
  · rfl

/-- C9 witness: after one concrete fast tick the pinned PSU is unchanged, and
the NotPresent preservation instantiated at the pinned PSU. -/
theorem health_flip_toggles_only_witness :
    (run (initState ir0) [Tick.fast fr0 fe0]).psus.get? 1 = some ⟨2, "PSU2_SLOT1", 2⟩
      ∧ psuFlip 3 = 3
      ∧ (((⟨2, "PSU2_SLOT1", 2⟩ : psuData).status = 3)
          ↔ ((⟨2, "PSU2_SLOT1", 2⟩ : psuData).status = 3)) :=
  ⟨(health_flip_toggles_only ir0 [Tick.fast fr0 fe0]).2.2.1,
    ((health_flip_toggles_only ir0 []).2.2.2.1 3).mpr rfl,
    (health_flip_toggles_only ir0 []).2.2.2.2 (initState ir0) fr0 fe0 1
      ⟨2, "PSU2_SLOT1", 2⟩ ⟨2, "PSU2_SLOT1", 2⟩ (by decide) (by decide)⟩

theorem ifacesFastLoop_find_pres (now : ℚ) (k : String)
    (hk : ∀ idx : ℤ, ifRateInKey idx ≠ k ∧ ifRateOutKey idx ≠ k
      ∧ ifErrKey idx ≠ k ∧ ifDiscKey idx ≠ k) :
    ∀ (l : List interfaceData) (ri ro : MetricVec) (m : Store),
      storeFind (ifacesFastLoop now l ri ro m).2.2 k = storeFind m k := by
  intro l
  induction l with
  | nil => intro ri ro m; rfl
  | cons hd rest ih =>
    intro ri ro m
    by_cases hc : hd.operStatus = 1 ∧ 0 < now - hd.lastUpdateTime
    · simp only [ifacesFastLoop, if_pos hc]
      rw [ih]
      rw [storeFind_upsert_ne _ _ _ _ (Ne.symm (hk hd.index).2.2.2)]
      rw [storeFind_upsert_ne _ _ _ _ (Ne.symm (hk hd.index).2.2.1)]
      rw [storeFind_upsert_ne _ _ _ _ (Ne.symm (hk hd.index).2.1)]
      rw [storeFind_upsert_ne _ _ _ _ (Ne.symm (hk hd.index).1)]
    · simp only [ifacesFastLoop, if_neg hc]
      exact ih _ _ _

theorem fansLoop_find_pres (k : String) (hk : ∀ idx : ℤ, fanKey idx ≠ k)
    (roll : ℕ → ℕ) :
    ∀ (l : List fanData) (i : ℕ) (fm : MetricVec) (m : Store),
      storeFind (fansLoop roll i l fm m).2.2 k = storeFind m k := by
  intro l
  induction l with
  | nil => intro i fm m; rfl
  | cons hd rest ih =>
    intro i fm m
    simp only [fansLoop]
    rw [ih]
    exact storeFind_upsert_ne _ _ _ _ (Ne.symm (hk _))

theorem psusLoop_find_pres (k : String) (hk : ∀ idx : ℤ, psuKey idx ≠ k)
    (roll : ℕ → ℕ) :
    ∀ (l : List psuData) (i : ℕ) (pm : MetricVec) (m : Store),
      storeFind (psusLoop roll i l pm m).2.2 k = storeFind m k := by
  intro l
  induction l with
  | nil => intro i pm m; rfl
  | cons hd rest ih =>
    intro i pm m
    simp only [psusLoop]
    rw [ih]
    exact storeFind_upsert_ne _ _ _ _ (Ne.symm (hk _))

theorem monitorTick_oidMap (s : SimState) (r : FastRand) (e : FastEnv) :
    (monitorTick s r e).oidMap
      = updateOidValue (updateOidValue (updateOidValue (updateOidValue (updateOidValue
          (updateOidValue (updateOidValue (updateOidValue (updateOidValue (updateOidValue
            (psusLoop r.psuRoll 0 s.psus s.simPsuStatus
              (fansLoop r.fanRoll 0 s.fans s.simFanStatus
                (ifacesFastLoop e.now s.interfaces s.ifInRate s.ifOutRate s.oidMap).2.2).2.2).2.2
            simGoroutinesOid (.u32 (e.numGoroutine % 4294967296)))
            simGcCountOid (.u32 (e.numGC % 4294967296)))
            simMemoryMBOid (.u32 (e.alloc / 1024 / 1024 % 4294967296)))
            simUptimeSecOid (.u32 (goU32Q (e.sinceStart * 100))))
            simCpuOid (.u32 (goU32Q (clampCpu (s.simulatedDeviceCPU + (((r.cpuRoll % 11 : ℕ) : ℚ) - 5))))))
            simMemUtilOid (.u32 (goU32Q (clampMem ((e.alloc : ℚ) / simulatedTotalMemoryBytes * 100)))))
            simTempOid (.i32 (goI32Q (clampTemp (s.simulatedDeviceTemp + (((r.tempRoll % 5 : ℕ) : ℚ) - 2))))))
            simArpOid (.u32 (r.arpRoll % 450 + 50)))
            simMacOid (.u32 (r.macRoll % 900 + 100)))
            simTcpOid (.u32 (r.tcpRoll % 280 + 20)) := rfl

/-- The oidMap entry under the simulator CPU key always keeps name
`simCpuOid`, tag `Gauge32` and a `uint32` payload. -/
def cpuOidInv (s : SimState) : Prop :=
  ∃ w : ℕ, storeFind s.oidMap simCpuOid = some ⟨simCpuOid, .gauge32, .u32 w⟩

/-- After a fast tick, the store's CPU entry holds exactly the `uint32`
conversion of the CPU gauge the same tick published. -/
theorem monitorTick_find_cpu (s : SimState) (r : FastRand) (e : FastEnv)
    (h : cpuOidInv s) :
    storeFind (monitorTick s r e).oidMap simCpuOid
      = some ⟨simCpuOid, .gauge32, .u32 (goU32Q ((monitorTick s r e).cpuUsage))⟩ := by
  obtain ⟨w, hw⟩ := h
  rw [monitorTick_oidMap, monitorTick_cpuUsage]
  rw [updateOidValue_find_ne _ simTcpOid simCpuOid _ (by decide)]
  rw [updateOidValue_find_ne _ simMacOid simCpuOid _ (by decide)]
  rw [updateOidValue_find_ne _ simArpOid simCpuOid _ (by decide)]
  rw [updateOidValue_find_ne _ simTempOid simCpuOid _ (by decide)]
  rw [updateOidValue_find_ne _ simMemUtilOid simCpuOid _ (by decide)]
  have hfind : storeFind (updateOidValue (updateOidValue (updateOidValue (updateOidValue
      (psusLoop r.psuRoll 0 s.psus s.simPsuStatus
        (fansLoop r.fanRoll 0 s.fans s.simFanStatus
          (ifacesFastLoop e.now s.interfaces s.ifInRate s.ifOutRate s.oidMap).2.2).2.2).2.2
      simGoroutinesOid (.u32 (e.numGoroutine % 4294967296)))
      simGcCountOid (.u32 (e.numGC % 4294967296)))
      simMemoryMBOid (.u32 (e.alloc / 1024 / 1024 % 4294967296)))
      simUptimeSecOid (.u32 (goU32Q (e.sinceStart * 100)))) simCpuOid
      = some ⟨simCpuOid, .gauge32, .u32 w⟩ := by
    rw [updateOidValue_find_ne _ simUptimeSecOid simCpuOid _ (by decide)]
    rw [updateOidValue_find_ne _ simMemoryMBOid simCpuOid _ (by decide)]
    rw [updateOidValue_find_ne _ simGcCountOid simCpuOid _ (by decide)]
    rw [updateOidValue_find_ne _ simGoroutinesOid simCpuOid _ (by decide)]
    rw [psusLoop_find_pres simCpuOid psuKey_ne_simCpuOid r.psuRoll]
    rw [fansLoop_find_pres simCpuOid fanKey_ne_simCpuOid r.fanRoll]
    rw [ifacesFastLoop_find_pres e.now simCpuOid
      (fun idx => ⟨ifRateInKey_ne_simCpuOid idx, ifRateOutKey_ne_simCpuOid idx,
        ifErrKey_ne_simCpuOid idx, ifDiscKey_ne_simCpuOid idx⟩)]
    exact hw
  exact updateOidValue_apply_u32 _ simCpuOid _ _ hfind (Or.inl rfl)

/-- The CPU gauge of `monitorSystemMetrics` is always a whole number in
`[5, 90]` (initially in `[10, 39]`, then clamped into `[5, 90]`). -/
def cpuIsInt (s : SimState) : Prop :=
  ∃ k : ℤ, s.simulatedDeviceCPU = (k : ℚ) ∧ 5 ≤ k ∧ k ≤ 90

theorem clampCpu_int (z : ℤ) :
    ∃ w : ℤ, clampCpu (z : ℚ) = (w : ℚ) ∧ 5 ≤ w ∧ w ≤ 90 := by
  unfold clampCpu
  by_cases h1 : (z : ℚ) < 5
  · rw [if_pos h1]
    exact ⟨5, by norm_num⟩
  · rw [if_neg h1]
    by_cases h2 : (z : ℚ) > 90
    · rw [if_pos h2]
      exact ⟨90, by norm_num⟩
    · rw [if_neg h2]
      refine ⟨z, rfl, ?_, ?_⟩
      · exact_mod_cast not_lt.mp h1
      · exact_mod_cast not_lt.mp h2

theorem monitorTick_simulatedDeviceCPU (s : SimState) (r : FastRand) (e : FastEnv) :
    (monitorTick s r e).simulatedDeviceCPU
      = clampCpu (s.simulatedDeviceCPU + (((r.cpuRoll % 11 : ℕ) : ℚ) - 5)) := rfl

theorem cpuIsInt_step (s : SimState) (t : Tick) (h : cpuIsInt s) :
    cpuIsInt (step s t) := by
  cases t with
  | slow r now => exact h
  | fast r e =>
    obtain ⟨k, hk, _, _⟩ := h
    rw [cpuIsInt, step, monitorTick_simulatedDeviceCPU, hk]
    generalize (r.cpuRoll % 11 : ℕ) = c
    have harg : (k : ℚ) + ((c : ℚ) - 5) = ((k + (c : ℤ) - 5 : ℤ) : ℚ) := by
      push_cast
      ring
    rw [harg]
    exact clampCpu_int _

theorem cpuOidInv_step (s : SimState) (t : Tick) (h : cpuOidInv s) :
    cpuOidInv (step s t) := by
  cases t with
  | slow r now =>
    obtain ⟨w, hw⟩ := h
    refine ⟨w, ?_⟩
    rw [step]
    show storeFind (slowOidUpdate s.oidMap) simCpuOid = _
    rw [slowOidUpdate_find_ne _ _ (by decide)]
    exact hw
  | fast r e =>
    exact ⟨goU32Q ((monitorTick s r e).cpuUsage), monitorTick_find_cpu s r e h⟩

theorem cpuInvs_run (ts : List Tick) :
    ∀ s : SimState, cpuIsInt s ∧ cpuOidInv s
      → cpuIsInt (run s ts) ∧ cpuOidInv (run s ts) := by
  induction ts with
  | nil => intro s h; exact h
  | cons t rest ih =>
    intro s h
    exact ih (step s t) ⟨cpuIsInt_step s t h.1, cpuOidInv_step s t h.2⟩

theorem initState_cpuInvs (ir : InitRand) :
    cpuIsInt (initState ir) ∧ cpuOidInv (initState ir) := by
  constructor
  · refine ⟨((ir.cpu0 % 30 + 10 : ℕ) : ℤ), ?_, ?_, ?_⟩
    · show ((ir.cpu0 % 30 + 10 : ℕ) : ℚ) = _
      norm_cast
    · omega
    · have h30 : ir.cpu0 % 30 < 30 := Nat.mod_lt _ (by norm_num)
      omega
  · exact ⟨0, rfl⟩

/-- C6: immediately after any fast tick (performed on any state reachable
from the initial state), the push-registry CPU gauge and the typed value
store's CPU entry denote the same underlying value: the store holds exactly
`Gauge32 (uint32 n)` under the simulator CPU key, with `(n : ℚ)` equal to the
float value set on the registry CPU gauge — the conversion to an unsigned
integer loses nothing, since the simulated CPU is always a whole number in
`[5, 90]`. -/
theorem cpu_dual_representation (ir : InitRand) (ts : List Tick)
    (r : FastRand) (e : FastEnv) :
    ∃ n : ℕ,
      storeFind (monitorTick (run (initState ir) ts) r e).oidMap simCpuOid
          = some ⟨simCpuOid, .gauge32, .u32 n⟩
        ∧ (n : ℚ) = (monitorTick (run (initState ir) ts) r e).cpuUsage := by
  obtain ⟨hint, hoid⟩ := cpuInvs_run ts (initState ir) (initState_cpuInvs ir)
  obtain ⟨k, hk, hk5, hk90⟩ := hint
  refine ⟨goU32Q ((monitorTick (run (initState ir) ts) r e).cpuUsage),
    monitorTick_find_cpu _ r e hoid, ?_⟩
  rw [monitorTick_cpuUsage, hk]
  generalize (r.cpuRoll % 11 : ℕ) = c
  have harg : (k : ℚ) + ((c : ℚ) - 5) = ((k + (c : ℤ) - 5 : ℤ) : ℚ) := by
    push_cast
    ring
  rw [harg]
  obtain ⟨w, hw, hw5, hw90⟩ := clampCpu_int (k + (c : ℤ) - 5)
  rw [hw, goU32Q_intCast w (by omega) (by omega)]
  exact_mod_cast Int.toNat_of_nonneg (show (0:ℤ) ≤ w by omega)

theorem monitorTick_find_sysUpTime (s : SimState) (r : FastRand) (e : FastEnv) :
    storeFind (monitorTick s r e).oidMap sysUpTimeOid
      = storeFind s.oidMap sysUpTimeOid := by
  rw [monitorTick_oidMap]
  rw [updateOidValue_find_ne _ simTcpOid sysUpTimeOid _ (by decide)]
  rw [updateOidValue_find_ne _ simMacOid sysUpTimeOid _ (by decide)]
  rw [updateOidValue_find_ne _ simArpOid sysUpTimeOid _ (by decide)]
  rw [updateOidValue_find_ne _ simTempOid sysUpTimeOid _ (by decide)]
  rw [updateOidValue_find_ne _ simMemUtilOid sysUpTimeOid _ (by decide)]
  rw [updateOidValue_find_ne _ simCpuOid sysUpTimeOid _ (by decide)]
  rw [updateOidValue_find_ne _ simUptimeSecOid sysUpTimeOid _ (by decide)]
  rw [updateOidValue_find_ne _ simMemoryMBOid sysUpTimeOid _ (by decide)]
  rw [updateOidValue_find_ne _ simGcCountOid sysUpTimeOid _ (by decide)]
  rw [updateOidValue_find_ne _ simGoroutinesOid sysUpTimeOid _ (by decide)]
  rw [psusLoop_find_pres sysUpTimeOid psuKey_ne_sysUpTimeOid r.psuRoll]
  rw [fansLoop_find_pres sysUpTimeOid fanKey_ne_sysUpTimeOid r.fanRoll]
  rw [ifacesFastLoop_find_pres e.now sysUpTimeOid
    (fun idx => ⟨ifRateInKey_ne_sysUpTimeOid idx, ifRateOutKey_ne_sysUpTimeOid idx,
      ifErrKey_ne_sysUpTimeOid idx, ifDiscKey_ne_sysUpTimeOid idx⟩)]

theorem incrementTick_find_sysUpTime (s : SimState) (r : SlowRand) (now : ℚ)
    (nm : String) (ty : PduType) (v : ℕ)
    (h : storeFind s.oidMap sysUpTimeOid = some ⟨nm, ty, .u32 v⟩) :
    storeFind (incrementTick s r now).oidMap sysUpTimeOid
      = some ⟨nm, ty, .u32 ((v + 500) % 4294967296)⟩ := by
  show storeFind (slowOidUpdate s.oidMap) sysUpTimeOid = _
  unfold slowOidUpdate
  rw [h]
  exact storeFind_upsert_self _ _ _

/-- One real-time period of 5 seconds: five fast ticks followed by one slow
tick (the default `metricsUpdateInterval` is 1 s, `counterIncrementInterval`
is 5 s). -/
def cycleTicks : List Tick :=
  [Tick.fast fr0 fe0, Tick.fast fr0 fe0, Tick.fast fr0 fe0,
   Tick.fast fr0 fe0, Tick.fast fr0 fe0, Tick.slow sr0 0]

/-- The concrete execution: `n` cycles from the initial state (all-zero
initialization draws, so the initial sysUpTime value is 12345000). -/
def runCycles : ℕ → SimState
  | 0 => initState ir0
  | n + 1 => run (runCycles n) cycleTicks

theorem runCycles_sysUpTime (n : ℕ) :
    storeFind (runCycles n).oidMap sysUpTimeOid
      = some ⟨sysUpTimeOid, .timeTicks, .u32 ((12345000 + 500 * n) % 4294967296)⟩ := by
  induction n with
  | zero =>
    show storeFind (initOidMap ir0) sysUpTimeOid = _
    simp [initOidMap, storeFind, sysDescrOid, sysUpTimeOid, ir0]
  | succ n ih =>
    show storeFind (run (runCycles n) cycleTicks).oidMap sysUpTimeOid = _
    simp only [cycleTicks, run_cons, run_nil, step]
    have hfast : storeFind (monitorTick (monitorTick (monitorTick (monitorTick
        (monitorTick (runCycles n) fr0 fe0) fr0 fe0) fr0 fe0) fr0 fe0) fr0 fe0).oidMap
        sysUpTimeOid
        = some ⟨sysUpTimeOid, .timeTicks, .u32 ((12345000 + 500 * n) % 4294967296)⟩ := by
      rw [monitorTick_find_sysUpTime, monitorTick_find_sysUpTime,
        monitorTick_find_sysUpTime, monitorTick_find_sysUpTime,
        monitorTick_find_sysUpTime]
      exact ih
    rw [incrementTick_find_sysUpTime _ sr0 0 _ _ _ hfast]
    have : ((12345000 + 500 * n) % 4294967296 + 500) % 4294967296
        = (12345000 + 500 * (n + 1)) % 4294967296 := by omega
    rw [this]

/-- C4 counterexample: the sysUpTime Counter32 value wraps.  On the concrete
execution `runCycles` the stored value after cycle 8565244 is 4294967000, and
one slow tick later the Go `uint32` addition `currentSysUpTimeTicks + 500`
wraps past `2^32`, storing 204 — the monotonic-counter value at the later
tick is smaller than at the earlier one, so the unconditional claim is
false. -/
theorem sysUpTime_counter_wraps :
    storeFind (runCycles 8565245).oidMap sysUpTimeOid
        = some ⟨sysUpTimeOid, .timeTicks, .u32 204⟩
      ∧ storeFind (runCycles 8565244).oidMap sysUpTimeOid
        = some ⟨sysUpTimeOid, .timeTicks, .u32 4294967000⟩
      ∧ 204 < 4294967000 := by
  refine ⟨?_, ?_, by norm_num⟩
  · rw [runCycles_sysUpTime]
  · rw [runCycles_sysUpTime]

/-- The inOctets increment drawn by a slow tick for the interface at slice
position `i`: `uint64(rand.Intn(20000) + 10000 + i*1000)`. -/
def slowInInc (r : SlowRand) (i : ℕ) : ℕ := r.inRoll i % 20000 + 10000 + 1000 * i

/-- The outOctets increment drawn by a slow tick for the interface at slice
position `i`: `uint64(rand.Intn(30000) + 15000 + i*2000)`. -/
def slowOutInc (r : SlowRand) (i : ℕ) : ℕ := r.outRoll i % 30000 + 15000 + 2000 * i

theorem slowIfLoop_get_mono (r : SlowRand) (now : ℚ) :
    ∀ (l : List interfaceData) (i : ℕ) (em dm : MetricVec) (p : ℕ) (ifc : interfaceData),
      l.get? p = some ifc
      → ∃ ifc', ((slowIfLoop r now i l em dm).1).get? p = some ifc'
        ∧ (ifc' = ifc
          ∨ (ifc'.inOctets = (ifc.inOctets + slowInInc r (i + p)) % 18446744073709551616
            ∧ ifc'.outOctets = (ifc.outOctets + slowOutInc r (i + p)) % 18446744073709551616
            ∧ ((ifc'.inErrors = ifc.inErrors ∧ ifc'.outDiscards = ifc.outDiscards)
              ∨ ∃ a b : ℕ, 1 ≤ a ∧ a ≤ 3 ∧ 1 ≤ b ∧ b ≤ 2
                  ∧ ifc'.inErrors = (ifc.inErrors + a) % 18446744073709551616
                  ∧ ifc'.outDiscards = (ifc.outDiscards + b) % 18446744073709551616))) := by
  intro l
  induction l with
  | nil => intro i em dm p ifc h; simp at h
  | cons hd rest ih =>
    intro i em dm p ifc h
    cases p with
    | zero =>
      simp only [List.get?] at h
      injection h with h
      by_cases hup : hd.operStatus = 1
      · by_cases herr : r.errRoll i % 100 < 2
        · simp only [slowIfLoop, if_pos hup, if_pos herr, List.get?]
          refine ⟨_, rfl, Or.inr ?_⟩
          rw [← h]
          refine ⟨by simp [slowInInc, Nat.add_zero], by simp [slowOutInc, Nat.add_zero],
            Or.inr ⟨r.errInc i % 3 + 1, r.discInc i % 2 + 1, ?_, ?_, ?_, ?_, by simp, by simp⟩⟩
          · omega
          · have := Nat.mod_lt (r.errInc i) (show 0 < 3 by norm_num)
            omega
          · omega
          · have := Nat.mod_lt (r.discInc i) (show 0 < 2 by norm_num)
            omega
        · simp only [slowIfLoop, if_pos hup, if_neg herr, List.get?]
          refine ⟨_, rfl, Or.inr ?_⟩
          rw [← h]
          exact ⟨by simp [slowInInc, Nat.add_zero], by simp [slowOutInc, Nat.add_zero],
            Or.inl ⟨rfl, rfl⟩⟩
      · simp only [slowIfLoop, if_neg hup, List.get?]
        exact ⟨hd, rfl, Or.inl h⟩
    | succ p =>
      simp only [List.get?] at h
      have hip : i + 1 + p = i + (p + 1) := by omega
      by_cases hup : hd.operStatus = 1
      · by_cases herr : r.errRoll i % 100 < 2
        · simp only [slowIfLoop, if_pos hup, if_pos herr, List.get?]
          obtain ⟨ifc', h1, h2⟩ := ih (i + 1) _ _ p ifc h
          rw [hip] at h2
          exact ⟨ifc', h1, h2⟩
        · simp only [slowIfLoop, if_pos hup, if_neg herr, List.get?]
          obtain ⟨ifc', h1, h2⟩ := ih (i + 1) _ _ p ifc h
          rw [hip] at h2
          exact ⟨ifc', h1, h2⟩
      · simp only [slowIfLoop, if_neg hup, List.get?]
        obtain ⟨ifc', h1, h2⟩ := ih (i + 1) _ _ p ifc h
        rw [hip] at h2
        exact ⟨ifc', h1, h2⟩

theorem slowIfLoop_met_mono (r : SlowRand) (now : ℚ) :
    ∀ (l : List interfaceData) (i : ℕ) (em dm : MetricVec) (idx : ℤ),
      pubVal em idx ≤ pubVal (slowIfLoop r now i l em dm).2.1 idx
        ∧ pubVal dm idx ≤ pubVal (slowIfLoop r now i l em dm).2.2 idx := by
  intro l
  induction l with
  | nil => intro i em dm idx; exact ⟨le_refl _, le_refl _⟩
  | cons hd rest ih =>
    intro i em dm idx
    by_cases hup : hd.operStatus = 1
    · by_cases herr : r.errRoll i % 100 < 2
      · simp only [slowIfLoop, if_pos hup, if_pos herr]
        obtain ⟨h1, h2⟩ := ih (i + 1) (vecAdd em hd.index ((r.errInc i % 3 + 1 : ℕ) : ℚ))
          (vecAdd dm hd.index ((r.discInc i % 2 + 1 : ℕ) : ℚ)) idx
        constructor
        · exact le_trans (vecAdd_mono em hd.index _ (by positivity) idx) h1
        · exact le_trans (vecAdd_mono dm hd.index _ (by positivity) idx) h2
      · simp only [slowIfLoop, if_pos hup, if_neg herr]
        exact ih (i + 1) em dm idx
    · simp only [slowIfLoop, if_neg hup]
      exact ih (i + 1) em dm idx

/-- The sysUpTime store entry read back as the `uint32` it always holds. -/
def sysUpTimeU32 (s : SimState) : Option ℕ :=
  match storeFind s.oidMap sysUpTimeOid with
  | some pdu =>
    match pdu.value with
    | .u32 v => some v
    | _ => none
  | none => none

theorem incrementTick_oidMap (s : SimState) (r : SlowRand) (now : ℚ) :
    (incrementTick s r now).oidMap = slowOidUpdate s.oidMap := rfl

theorem monitorTick_sysUpTimeU32 (s : SimState) (r : FastRand) (e : FastEnv) :
    sysUpTimeU32 (monitorTick s r e) = sysUpTimeU32 s := by
  unfold sysUpTimeU32
  rw [monitorTick_find_sysUpTime]

theorem incrementTick_sysUpTimeU32 (s : SimState) (r : SlowRand) (now : ℚ) :
    sysUpTimeU32 (incrementTick s r now)
      = (sysUpTimeU32 s).map (fun v => (v + 500) % 4294967296) := by
  unfold sysUpTimeU32
  rw [incrementTick_oidMap]
  unfold slowOidUpdate
  cases hf : storeFind s.oidMap sysUpTimeOid with
  | none => simp [hf]
  | some pdu =>
    obtain ⟨nm, ty, val⟩ := pdu
    cases val <;> simp [hf, storeFind_upsert_self]

theorem monitorTick_uptime (s : SimState) (r : FastRand) (e : FastEnv) :
    (monitorTick s r e).uptime = s.uptime + 1 := rfl

theorem monitorTick_gcCount (s : SimState) (r : FastRand) (e : FastEnv) :
    (monitorTick s r e).gcCount
      = if e.numGC > s.lastGCCount
          then s.gcCount + ((e.numGC - s.lastGCCount : ℕ) : ℚ) else s.gcCount := rfl

theorem incrementTick_interfaces (s : SimState) (r : SlowRand) (now : ℚ) :
    (incrementTick s r now).interfaces
      = (slowIfLoop r now 0 s.interfaces s.simIfInErrorsTotal s.simIfOutDiscardsTotal).1 := rfl

theorem ifErrKey_ne_ifDiscKey (a b : ℤ) : ifErrKey a ≠ ifDiscKey b :=
  string_append_ne_of_head_ne ".1.3.6.1.4.1.2021.13.3.6.1." ".1.3.6.1.4.1.2021.13.3.7.1."
    _ _ (by decide) (by decide)

theorem ifDiscKey_ne_ifErrKey (a b : ℤ) : ifDiscKey a ≠ ifErrKey b :=
  string_append_ne_of_head_ne ".1.3.6.1.4.1.2021.13.3.7.1." ".1.3.6.1.4.1.2021.13.3.6.1."
    _ _ (by decide) (by decide)

theorem ifErrKey_split (b : ℤ) :
    ifErrKey b = ".1.3.6.1.4.1.2021.13.3." ++ ("6.1." ++ (toString b ++ "")) := by
  show ".1.3.6.1.4.1.2021.13.3.6.1." ++ (toString b ++ "") = _
  rw [← String.append_assoc]
  rfl

theorem ifDiscKey_split (b : ℤ) :
    ifDiscKey b = ".1.3.6.1.4.1.2021.13.3." ++ ("7.1." ++ (toString b ++ "")) := by
  show ".1.3.6.1.4.1.2021.13.3.7.1." ++ (toString b ++ "") = _
  rw [← String.append_assoc]
  rfl

theorem ifRateInKey_ne_ifErrKey (a b : ℤ) : ifRateInKey a ≠ ifErrKey b := by
  rw [ifErrKey_split]
  exact string_append_ne_of_head_ne ".1.3.6.1.4.1.2021.13.2." ".1.3.6.1.4.1.2021.13.3."
    _ _ (by decide) (by decide)

theorem ifRateOutKey_ne_ifErrKey (a b : ℤ) : ifRateOutKey a ≠ ifErrKey b := by
  rw [ifErrKey_split]
  exact string_append_ne_of_head_ne ".1.3.6.1.4.1.2021.13.2." ".1.3.6.1.4.1.2021.13.3."
    _ _ (by decide) (by decide)

theorem ifRateInKey_ne_ifDiscKey (a b : ℤ) : ifRateInKey a ≠ ifDiscKey b := by
  rw [ifDiscKey_split]
  exact string_append_ne_of_head_ne ".1.3.6.1.4.1.2021.13.2." ".1.3.6.1.4.1.2021.13.3."
    _ _ (by decide) (by decide)

theorem ifRateOutKey_ne_ifDiscKey (a b : ℤ) : ifRateOutKey a ≠ ifDiscKey b := by
  rw [ifDiscKey_split]
  exact string_append_ne_of_head_ne ".1.3.6.1.4.1.2021.13.2." ".1.3.6.1.4.1.2021.13.3."
    _ _ (by decide) (by decide)

theorem fanKey_ne_ifErrKey (a b : ℤ) : fanKey a ≠ ifErrKey b :=
  string_append_ne_of_head_ne ".1.3.6.1.4.1.2021.13.3.4.1." ".1.3.6.1.4.1.2021.13.3.6.1."
    _ _ (by decide) (by decide)

theorem psuKey_ne_ifErrKey (a b : ℤ) : psuKey a ≠ ifErrKey b :=
  string_append_ne_of_head_ne ".1.3.6.1.4.1.2021.13.3.5.1." ".1.3.6.1.4.1.2021.13.3.6.1."
    _ _ (by decide) (by decide)

theorem fanKey_ne_ifDiscKey (a b : ℤ) : fanKey a ≠ ifDiscKey b :=
  string_append_ne_of_head_ne ".1.3.6.1.4.1.2021.13.3.4.1." ".1.3.6.1.4.1.2021.13.3.7.1."
    _ _ (by decide) (by decide)

theorem psuKey_ne_ifDiscKey (a b : ℤ) : psuKey a ≠ ifDiscKey b :=
  string_append_ne_of_head_ne ".1.3.6.1.4.1.2021.13.3.5.1." ".1.3.6.1.4.1.2021.13.3.7.1."
    _ _ (by decide) (by decide)

theorem ifErrKey_ne_simTcpOid (b : ℤ) : ifErrKey b ≠ simTcpOid := by
  have h2 : simTcpOid = ".1.3.6.1.4.1.2021.13.3.1" ++ "0.0" := by decide
  have h1 : ifErrKey b = ".1.3.6.1.4.1.2021.13.3.6" ++ (".1." ++ (toString b ++ "")) := by
    show ".1.3.6.1.4.1.2021.13.3.6.1." ++ (toString b ++ "") = _
    rw [← String.append_assoc]
    rfl
  rw [h1, h2]
  exact string_append_ne_of_head_ne _ _ _ _ (by decide) (by decide)

theorem ifDiscKey_ne_simTcpOid (b : ℤ) : ifDiscKey b ≠ simTcpOid := by
  have h2 : simTcpOid = ".1.3.6.1.4.1.2021.13.3.1" ++ "0.0" := by decide
  have h1 : ifDiscKey b = ".1.3.6.1.4.1.2021.13.3.7" ++ (".1." ++ (toString b ++ "")) := by
    show ".1.3.6.1.4.1.2021.13.3.7.1." ++ (toString b ++ "") = _
    rw [← String.append_assoc]
    rfl
  rw [h1, h2]
  exact string_append_ne_of_head_ne _ _ _ _ (by decide) (by decide)

/-- Like `ifacesFastLoop_find_pres`, but the disjointness hypothesis is only
needed for the interfaces the loop actually publishes (Up with a stale
baseline). -/
theorem ifacesFastLoop_find_pres_up (now : ℚ) (k : String) :
    ∀ (l : List interfaceData) (ri ro : MetricVec) (m : Store),
      (∀ ifc2 ∈ l, ifc2.operStatus = 1 ∧ 0 < now - ifc2.lastUpdateTime
        → ifRateInKey ifc2.index ≠ k ∧ ifRateOutKey ifc2.index ≠ k
          ∧ ifErrKey ifc2.index ≠ k ∧ ifDiscKey ifc2.index ≠ k)
      → storeFind (ifacesFastLoop now l ri ro m).2.2 k = storeFind m k := by
  intro l
  induction l with
  | nil => intro ri ro m _; rfl
  | cons hd rest ih =>
    intro ri ro m h
    have hrest : ∀ ifc2 ∈ rest, ifc2.operStatus = 1 ∧ 0 < now - ifc2.lastUpdateTime
        → ifRateInKey ifc2.index ≠ k ∧ ifRateOutKey ifc2.index ≠ k
          ∧ ifErrKey ifc2.index ≠ k ∧ ifDiscKey ifc2.index ≠ k :=
      fun ifc2 hm => h ifc2 (List.mem_cons_of_mem hd hm)
    by_cases hc : hd.operStatus = 1 ∧ 0 < now - hd.lastUpdateTime
    · obtain ⟨k1, k2, k3, k4⟩ := h hd (List.mem_cons_self hd rest) hc
      simp only [ifacesFastLoop, if_pos hc]
      rw [ih _ _ _ hrest]
      rw [storeFind_upsert_ne _ _ _ _ (Ne.symm k4)]
      rw [storeFind_upsert_ne _ _ _ _ (Ne.symm k3)]
      rw [storeFind_upsert_ne _ _ _ _ (Ne.symm k2)]
      rw [storeFind_upsert_ne _ _ _ _ (Ne.symm k1)]
    · simp only [ifacesFastLoop, if_neg hc]
      exact ih _ _ _ hrest

/-- The interface loop publishes, for an Up interface with a stale baseline,
exactly the `uint32` truncation of its current cumulative error and discard
counters under its two Counter32 keys (provided no other slice position
carries a colliding key). -/
theorem ifacesFastLoop_written_at (now : ℚ) :
    ∀ (l : List interfaceData) (ri ro : MetricVec) (m : Store) (p : ℕ) (ifc : interfaceData),
      l.get? p = some ifc
      → ifc.operStatus = 1 → 0 < now - ifc.lastUpdateTime
      → (∀ (q : ℕ) (ifc2 : interfaceData), l.get? q = some ifc2 → q ≠ p
          → ifErrKey ifc2.index ≠ ifErrKey ifc.index
            ∧ ifDiscKey ifc2.index ≠ ifDiscKey ifc.index)
      → storeFind (ifacesFastLoop now l ri ro m).2.2 (ifErrKey ifc.index)
          = some ⟨ifErrKey ifc.index, .counter32, .u32 (ifc.inErrors % 4294967296)⟩
        ∧ storeFind (ifacesFastLoop now l ri ro m).2.2 (ifDiscKey ifc.index)
          = some ⟨ifDiscKey ifc.index, .counter32, .u32 (ifc.outDiscards % 4294967296)⟩ := by
  intro l
  induction l with
  | nil => intro ri ro m p ifc h; simp at h
  | cons hd rest ih =>
    intro ri ro m p ifc h hup hdt hnc
    cases p with
    | zero =>
      simp only [List.get?] at h
      injection h with h
      subst h
      simp only [ifacesFastLoop, if_pos (And.intro hup hdt)]
      have hrest1 : ∀ ifc2 ∈ rest, ifc2.operStatus = 1 ∧ 0 < now - ifc2.lastUpdateTime
          → ifRateInKey ifc2.index ≠ ifErrKey hd.index
            ∧ ifRateOutKey ifc2.index ≠ ifErrKey hd.index
            ∧ ifErrKey ifc2.index ≠ ifErrKey hd.index
            ∧ ifDiscKey ifc2.index ≠ ifErrKey hd.index := by
        intro ifc2 hm _
        obtain ⟨q, hq⟩ := List.mem_iff_get?.mp hm
        have hl : (hd :: rest).get? (q + 1) = some ifc2 := hq
        obtain ⟨he, _⟩ := hnc (q + 1) ifc2 hl (Nat.succ_ne_zero q)
        exact ⟨ifRateInKey_ne_ifErrKey _ _, ifRateOutKey_ne_ifErrKey _ _, he,
          ifDiscKey_ne_ifErrKey _ _⟩
      have hrest2 : ∀ ifc2 ∈ rest, ifc2.operStatus = 1 ∧ 0 < now - ifc2.lastUpdateTime
          → ifRateInKey ifc2.index ≠ ifDiscKey hd.index
            ∧ ifRateOutKey ifc2.index ≠ ifDiscKey hd.index
            ∧ ifErrKey ifc2.index ≠ ifDiscKey hd.index
            ∧ ifDiscKey ifc2.index ≠ ifDiscKey hd.index := by
        intro ifc2 hm _
        obtain ⟨q, hq⟩ := List.mem_iff_get?.mp hm
        have hl : (hd :: rest).get? (q + 1) = some ifc2 := hq
        obtain ⟨_, hdk⟩ := hnc (q + 1) ifc2 hl (Nat.succ_ne_zero q)
        exact ⟨ifRateInKey_ne_ifDiscKey _ _, ifRateOutKey_ne_ifDiscKey _ _,
          ifErrKey_ne_ifDiscKey _ _, hdk⟩
      constructor
      · rw [ifacesFastLoop_find_pres_up now _ rest _ _ _ hrest1]
        rw [storeFind_upsert_ne _ _ _ _ (ifErrKey_ne_ifDiscKey hd.index hd.index)]
        exact storeFind_upsert_self _ _ _
      · rw [ifacesFastLoop_find_pres_up now _ rest _ _ _ hrest2]
        exact storeFind_upsert_self _ _ _
    | succ p =>
      simp only [List.get?] at h
      have hnc' : ∀ (q : ℕ) (ifc2 : interfaceData), rest.get? q = some ifc2 → q ≠ p
          → ifErrKey ifc2.index ≠ ifErrKey ifc.index
            ∧ ifDiscKey ifc2.index ≠ ifDiscKey ifc.index := by
        intro q ifc2 hq hne
        exact hnc (q + 1) ifc2 hq (by omega)
      by_cases hc : hd.operStatus = 1 ∧ 0 < now - hd.lastUpdateTime
      · simp only [ifacesFastLoop, if_pos hc]
        exact ih _ _ _ p ifc h hup hdt hnc'
      · simp only [ifacesFastLoop, if_neg hc]
        exact ih _ _ _ p ifc h hup hdt hnc'

/-- After the interface loop, nothing else in the fast tick touches a key
that is distinct from the ten predefined scalar keys and from every fan and
PSU key. -/
theorem monitorTick_find_to_ifloop (s : SimState) (r : FastRand) (e : FastEnv)
    (k : String)
    (h1 : k ≠ simGoroutinesOid) (h2 : k ≠ simGcCountOid) (h3 : k ≠ simMemoryMBOid)
    (h4 : k ≠ simUptimeSecOid) (h5 : k ≠ simCpuOid) (h6 : k ≠ simMemUtilOid)
    (h7 : k ≠ simTempOid) (h8 : k ≠ simArpOid) (h9 : k ≠ simMacOid)
    (h10 : k ≠ simTcpOid)
    (hf : ∀ idx : ℤ, fanKey idx ≠ k) (hp : ∀ idx : ℤ, psuKey idx ≠ k) :
    storeFind (monitorTick s r e).oidMap k
      = storeFind (ifacesFastLoop e.now s.interfaces s.ifInRate s.ifOutRate s.oidMap).2.2 k := by
  rw [monitorTick_oidMap]
  rw [updateOidValue_find_ne _ simTcpOid k _ h10]
  rw [updateOidValue_find_ne _ simMacOid k _ h9]
  rw [updateOidValue_find_ne _ simArpOid k _ h8]
  rw [updateOidValue_find_ne _ simTempOid k _ h7]
  rw [updateOidValue_find_ne _ simMemUtilOid k _ h6]
  rw [updateOidValue_find_ne _ simCpuOid k _ h5]
  rw [updateOidValue_find_ne _ simUptimeSecOid k _ h4]
  rw [updateOidValue_find_ne _ simMemoryMBOid k _ h3]
  rw [updateOidValue_find_ne _ simGcCountOid k _ h2]
  rw [updateOidValue_find_ne _ simGoroutinesOid k _ h1]
  rw [psusLoop_find_pres k hp r.psuRoll]
  rw [fansLoop_find_pres k hf r.fanRoll]

/-- A fast tick publishes, for an Up interface with a stale baseline, exactly
`uint32(inErrors)` / `uint32(outDiscards)` under the interface's Counter32
keys. -/
theorem monitorTick_errDisc_written (s : SimState) (r : FastRand) (e : FastEnv)
    (p : ℕ) (ifc : interfaceData)
    (h1 : s.interfaces.get? p = some ifc)
    (hup : ifc.operStatus = 1) (hdt : 0 < e.now - ifc.lastUpdateTime)
    (hnc : ∀ (q : ℕ) (ifc2 : interfaceData), s.interfaces.get? q = some ifc2 → q ≠ p
        → ifErrKey ifc2.index ≠ ifErrKey ifc.index
          ∧ ifDiscKey ifc2.index ≠ ifDiscKey ifc.index) :
    storeFind (monitorTick s r e).oidMap (ifErrKey ifc.index)
        = some ⟨ifErrKey ifc.index, .counter32, .u32 (ifc.inErrors % 4294967296)⟩
      ∧ storeFind (monitorTick s r e).oidMap (ifDiscKey ifc.index)
        = some ⟨ifDiscKey ifc.index, .counter32, .u32 (ifc.outDiscards % 4294967296)⟩ := by
  have hw := ifacesFastLoop_written_at e.now s.interfaces s.ifInRate s.ifOutRate
    s.oidMap p ifc h1 hup hdt hnc
  constructor
  · rw [monitorTick_find_to_ifloop s r e (ifErrKey ifc.index)
      (string_append_ne_short _ _ _ (by decide)) (string_append_ne_short _ _ _ (by decide))
      (string_append_ne_short _ _ _ (by decide)) (string_append_ne_short _ _ _ (by decide))
      (string_append_ne_short _ _ _ (by decide)) (string_append_ne_short _ _ _ (by decide))
      (string_append_ne_short _ _ _ (by decide)) (string_append_ne_short _ _ _ (by decide))
      (string_append_ne_short _ _ _ (by decide)) (ifErrKey_ne_simTcpOid _)
      (fun idx => fanKey_ne_ifErrKey idx ifc.index)
      (fun idx => psuKey_ne_ifErrKey idx ifc.index)]
    exact hw.1
  · rw [monitorTick_find_to_ifloop s r e (ifDiscKey ifc.index)
      (string_append_ne_short _ _ _ (by decide)) (string_append_ne_short _ _ _ (by decide))
      (string_append_ne_short _ _ _ (by decide)) (string_append_ne_short _ _ _ (by decide))
      (string_append_ne_short _ _ _ (by decide)) (string_append_ne_short _ _ _ (by decide))
      (string_append_ne_short _ _ _ (by decide)) (string_append_ne_short _ _ _ (by decide))
      (string_append_ne_short _ _ _ (by decide)) (ifDiscKey_ne_simTcpOid _)
      (fun idx => fanKey_ne_ifDiscKey idx ifc.index)
      (fun idx => psuKey_ne_ifDiscKey idx ifc.index)]
    exact hw.2

/-- A fast tick that does not publish an interface (Down, or baseline not in
the past) leaves that interface's Counter32 entries untouched. -/
theorem monitorTick_errDisc_pres (s : SimState) (r : FastRand) (e : FastEnv)
    (p : ℕ) (ifc : interfaceData)
    (h1 : s.interfaces.get? p = some ifc)
    (hno : ¬(ifc.operStatus = 1 ∧ 0 < e.now - ifc.lastUpdateTime))
    (hnc : ∀ (q : ℕ) (ifc2 : interfaceData), s.interfaces.get? q = some ifc2 → q ≠ p
        → ifErrKey ifc2.index ≠ ifErrKey ifc.index
          ∧ ifDiscKey ifc2.index ≠ ifDiscKey ifc.index) :
    storeFind (monitorTick s r e).oidMap (ifErrKey ifc.index)
        = storeFind s.oidMap (ifErrKey ifc.index)
      ∧ storeFind (monitorTick s r e).oidMap (ifDiscKey ifc.index)
        = storeFind s.oidMap (ifDiscKey ifc.index) := by
  have hgate1 : ∀ ifc2 ∈ s.interfaces,
      ifc2.operStatus = 1 ∧ 0 < e.now - ifc2.lastUpdateTime
      → ifRateInKey ifc2.index ≠ ifErrKey ifc.index
        ∧ ifRateOutKey ifc2.index ≠ ifErrKey ifc.index
        ∧ ifErrKey ifc2.index ≠ ifErrKey ifc.index
        ∧ ifDiscKey ifc2.index ≠ ifErrKey ifc.index := by
    intro ifc2 hm hgate
    obtain ⟨q, hq⟩ := List.mem_iff_get?.mp hm
    refine ⟨ifRateInKey_ne_ifErrKey _ _, ifRateOutKey_ne_ifErrKey _ _, ?_,
      ifDiscKey_ne_ifErrKey _ _⟩
    by_cases hqp : q = p
    · subst hqp
      rw [h1] at hq
      injection hq with hq
      subst hq
      exact absurd hgate hno
    · exact (hnc q ifc2 hq hqp).1
  have hgate2 : ∀ ifc2 ∈ s.interfaces,
      ifc2.operStatus = 1 ∧ 0 < e.now - ifc2.lastUpdateTime
      → ifRateInKey ifc2.index ≠ ifDiscKey ifc.index
        ∧ ifRateOutKey ifc2.index ≠ ifDiscKey ifc.index
        ∧ ifErrKey ifc2.index ≠ ifDiscKey ifc.index
        ∧ ifDiscKey ifc2.index ≠ ifDiscKey ifc.index := by
    intro ifc2 hm hgate
    obtain ⟨q, hq⟩ := List.mem_iff_get?.mp hm
    refine ⟨ifRateInKey_ne_ifDiscKey _ _, ifRateOutKey_ne_ifDiscKey _ _,
      ifErrKey_ne_ifDiscKey _ _, ?_⟩
    by_cases hqp : q = p
    · subst hqp
      rw [h1] at hq
      injection hq with hq
      subst hq
      exact absurd hgate hno
    · exact (hnc q ifc2 hq hqp).2
  constructor
  · rw [monitorTick_find_to_ifloop s r e (ifErrKey ifc.index)
      (string_append_ne_short _ _ _ (by decide)) (string_append_ne_short _ _ _ (by decide))
      (string_append_ne_short _ _ _ (by decide)) (string_append_ne_short _ _ _ (by decide))
      (string_append_ne_short _ _ _ (by decide)) (string_append_ne_short _ _ _ (by decide))
      (string_append_ne_short _ _ _ (by decide)) (string_append_ne_short _ _ _ (by decide))
      (string_append_ne_short _ _ _ (by decide)) (ifErrKey_ne_simTcpOid _)
      (fun idx => fanKey_ne_ifErrKey idx ifc.index)
      (fun idx => psuKey_ne_ifErrKey idx ifc.index)]
    exact ifacesFastLoop_find_pres_up e.now _ s.interfaces _ _ _ hgate1
  · rw [monitorTick_find_to_ifloop s r e (ifDiscKey ifc.index)
      (string_append_ne_short _ _ _ (by decide)) (string_append_ne_short _ _ _ (by decide))
      (string_append_ne_short _ _ _ (by decide)) (string_append_ne_short _ _ _ (by decide))
      (string_append_ne_short _ _ _ (by decide)) (string_append_ne_short _ _ _ (by decide))
      (string_append_ne_short _ _ _ (by decide)) (string_append_ne_short _ _ _ (by decide))
      (string_append_ne_short _ _ _ (by decide)) (ifDiscKey_ne_simTcpOid _)
      (fun idx => fanKey_ne_ifDiscKey idx ifc.index)
      (fun idx => psuKey_ne_ifDiscKey idx ifc.index)]
    exact ifacesFastLoop_find_pres_up e.now _ s.interfaces _ _ _ hgate2

/-- The `uint32` payload stored in the typed value store under a key (`none`
if the key is absent or holds another payload type). -/
def oidU32 (m : Store) (k : String) : Option ℕ :=
  match storeFind m k with
  | some pdu =>
    match pdu.value with
    | .u32 v => some v
    | _ => none
  | none => none

theorem oidU32_congr (m m' : Store) (k : String)
    (h : storeFind m' k = storeFind m k) : oidU32 m' k = oidU32 m k := by
  unfold oidU32
  rw [h]

/-- C4 amended: every monotonic-counter quantity advances by a non-negative
increment, so it never decreases **except across a width wrap**.  The
Prometheus counters (`uptime`, GC count, per-interface error/discard totals)
are floats and are genuinely monotone under every tick.  The `uint64`
interface counters and the `uint32` sysUpTime store entry are monotone under
every tick whenever the incremented value stays below `2^64` resp. `2^32`
(per-tick increments are bounded by `31000 + 1000p` / `47000 + 2000p` / 3 /
2 / 500).  The published Counter32 store entries for interface errors and
discards are either untouched by a tick or rewritten by a fast tick to the
current cumulative counter truncated to 32 bits
(`uint32(inErrors)` / `uint32(outDiscards)`), hence they do not decrease
whenever the previously published value does not exceed that truncation —
i.e. whenever the 64-bit counter has not crossed a multiple of `2^32` since
the entry was last published.  At a wrap a stored value decreases, as the
counterexample execution exhibits for sysUpTime. -/
theorem counters_monotone_mod_wrap (s : SimState) (t : Tick) :
    s.uptime ≤ (step s t).uptime
      ∧ s.gcCount ≤ (step s t).gcCount
      ∧ (∀ idx : ℤ, pubVal s.simIfInErrorsTotal idx
          ≤ pubVal (step s t).simIfInErrorsTotal idx)
      ∧ (∀ idx : ℤ, pubVal s.simIfOutDiscardsTotal idx
          ≤ pubVal (step s t).simIfOutDiscardsTotal idx)
      ∧ (∀ (p : ℕ) (ifc ifc' : interfaceData),
          s.interfaces.get? p = some ifc → (step s t).interfaces.get? p = some ifc'
          → (ifc.inOctets + 31000 + 1000 * p < 18446744073709551616
                → ifc.inOctets ≤ ifc'.inOctets)
            ∧ (ifc.outOctets + 47000 + 2000 * p < 18446744073709551616
                → ifc.outOctets ≤ ifc'.outOctets)
            ∧ (ifc.inErrors + 3 < 18446744073709551616 → ifc.inErrors ≤ ifc'.inErrors)
            ∧ (ifc.outDiscards + 2 < 18446744073709551616
                → ifc.outDiscards ≤ ifc'.outDiscards))
      ∧ (∀ v v' : ℕ, sysUpTimeU32 s = some v → sysUpTimeU32 (step s t) = some v'
          → v + 500 < 4294967296 → v ≤ v')
      ∧ (∀ (p : ℕ) (ifc : interfaceData) (w w' : ℕ),
          s.interfaces.get? p = some ifc
          → (∀ (q : ℕ) (ifc2 : interfaceData), s.interfaces.get? q = some ifc2 → q ≠ p
              → ifErrKey ifc2.index ≠ ifErrKey ifc.index
                ∧ ifDiscKey ifc2.index ≠ ifDiscKey ifc.index)
          → oidU32 s.oidMap (ifErrKey ifc.index) = some w
          → oidU32 (step s t).oidMap (ifErrKey ifc.index) = some w'
          → (w' = w ∨ w' = ifc.inErrors % 4294967296)
            ∧ (w ≤ ifc.inErrors % 4294967296 → w ≤ w'))
      ∧ (∀ (p : ℕ) (ifc : interfaceData) (w w' : ℕ),
          s.interfaces.get? p = some ifc
          → (∀ (q : ℕ) (ifc2 : interfaceData), s.interfaces.get? q = some ifc2 → q ≠ p
              → ifErrKey ifc2.index ≠ ifErrKey ifc.index
                ∧ ifDiscKey ifc2.index ≠ ifDiscKey ifc.index)
          → oidU32 s.oidMap (ifDiscKey ifc.index) = some w
          → oidU32 (step s t).oidMap (ifDiscKey ifc.index) = some w'
          → (w' = w ∨ w' = ifc.outDiscards % 4294967296)
            ∧ (w ≤ ifc.outDiscards % 4294967296 → w ≤ w')) := by
  cases t with
  | fast r e =>
    refine ⟨?_, ?_, fun idx => le_refl _, fun idx => le_refl _, ?_, ?_, ?_, ?_⟩
    · rw [step, monitorTick_uptime]
      linarith
    · rw [step, monitorTick_gcCount]
      split_ifs
      · have : (0 : ℚ) ≤ ((e.numGC - s.lastGCCount : ℕ) : ℚ) := Nat.cast_nonneg _
        linarith
      · exact le_refl _
    · intro p ifc ifc' h1 h2
      rw [step, monitorTick_interfaces] at h2
      rw [h1] at h2
      injection h2 with h2
      rw [← h2]
      exact ⟨fun _ => le_refl _, fun _ => le_refl _, fun _ => le_refl _, fun _ => le_refl _⟩
    · intro v v' hv hv' hlt
      rw [step, monitorTick_sysUpTimeU32, hv] at hv'
      injection hv' with hv'
      omega
    · intro p ifc w w' h1 hnc hw hw'
      by_cases hc : ifc.operStatus = 1 ∧ 0 < e.now - ifc.lastUpdateTime
      · obtain ⟨he, _⟩ := monitorTick_errDisc_written s r e p ifc h1 hc.1 hc.2 hnc
        have hval : oidU32 (monitorTick s r e).oidMap (ifErrKey ifc.index)
            = some (ifc.inErrors % 4294967296) := by
          unfold oidU32
          rw [he]
        rw [step, hval] at hw'
        injection hw' with hw'
        subst hw'
        exact ⟨Or.inr rfl, fun hle => hle⟩
      · obtain ⟨he, _⟩ := monitorTick_errDisc_pres s r e p ifc h1 hc hnc
        rw [step, oidU32_congr _ _ _ he, hw] at hw'
        injection hw' with hw'
        subst hw'
        exact ⟨Or.inl rfl, fun _ => le_refl _⟩
    · intro p ifc w w' h1 hnc hw hw'
      by_cases hc : ifc.operStatus = 1 ∧ 0 < e.now - ifc.lastUpdateTime
      · obtain ⟨_, hdc⟩ := monitorTick_errDisc_written s r e p ifc h1 hc.1 hc.2 hnc
        have hval : oidU32 (monitorTick s r e).oidMap (ifDiscKey ifc.index)
            = some (ifc.outDiscards % 4294967296) := by
          unfold oidU32
          rw [hdc]
        rw [step, hval] at hw'
        injection hw' with hw'
        subst hw'
        exact ⟨Or.inr rfl, fun hle => hle⟩
      · obtain ⟨_, hdc⟩ := monitorTick_errDisc_pres s r e p ifc h1 hc hnc
        rw [step, oidU32_congr _ _ _ hdc, hw] at hw'
        injection hw' with hw'
        subst hw'
        exact ⟨Or.inl rfl, fun _ => le_refl _⟩
  | slow r now =>
    refine ⟨le_refl _, le_refl _, ?_, ?_, ?_, ?_, ?_, ?_⟩
    · intro idx
      exact (slowIfLoop_met_mono r now s.interfaces 0
        s.simIfInErrorsTotal s.simIfOutDiscardsTotal idx).1
    · intro idx
      exact (slowIfLoop_met_mono r now s.interfaces 0
        s.simIfInErrorsTotal s.simIfOutDiscardsTotal idx).2
    · intro p ifc ifc' h1 h2
      rw [step, incrementTick_interfaces] at h2
      obtain ⟨ifc2, hget, hcase⟩ := slowIfLoop_get_mono r now s.interfaces 0
        s.simIfInErrorsTotal s.simIfOutDiscardsTotal p ifc h1
      rw [hget] at h2
      injection h2 with h2
      subst h2
      rcases hcase with rfl | ⟨hin, hout, herr⟩
      · exact ⟨fun _ => le_refl _, fun _ => le_refl _, fun _ => le_refl _, fun _ => le_refl _⟩
      · have hinb : slowInInc r (0 + p) ≤ 29999 + 1000 * p := by
          unfold slowInInc
          have := Nat.mod_lt (r.inRoll (0 + p)) (show 0 < 20000 by norm_num)
          omega
        have houtb : slowOutInc r (0 + p) ≤ 44999 + 2000 * p := by
          unfold slowOutInc
          have := Nat.mod_lt (r.outRoll (0 + p)) (show 0 < 30000 by norm_num)
          omega
        refine ⟨?_, ?_, ?_, ?_⟩
        · intro hb
          rw [hin, Nat.mod_eq_of_lt (by omega)]
          omega
        · intro hb
          rw [hout, Nat.mod_eq_of_lt (by omega)]
          omega
        · intro hb
          rcases herr with ⟨he, _⟩ | ⟨a, b, ha1, ha3, _, _, he, _⟩
          · rw [he]
          · rw [he, Nat.mod_eq_of_lt (by omega)]
            omega
        · intro hb
          rcases herr with ⟨_, hdcs⟩ | ⟨a, b, _, _, hb1, hb2, _, hdcs⟩
          · rw [hdcs]
          · rw [hdcs, Nat.mod_eq_of_lt (by omega)]
            omega
    · intro v v' hv hv' hlt
      rw [step, incrementTick_sysUpTimeU32, hv] at hv'
      simp only [Option.map_some'] at hv'
      injection hv' with hv'
      rw [← hv', Nat.mod_eq_of_lt (by omega)]
      omega
    · intro p ifc w w' h1 hnc hw hw'
      have hpres : storeFind (incrementTick s r now).oidMap (ifErrKey ifc.index)
          = storeFind s.oidMap (ifErrKey ifc.index) := by
        rw [incrementTick_oidMap]
        exact slowOidUpdate_find_ne _ _ (ifErrKey_ne_sysUpTimeOid _)
      rw [step, oidU32_congr _ _ _ hpres, hw] at hw'
      injection hw' with hw'
      subst hw'
      exact ⟨Or.inl rfl, fun _ => le_refl _⟩
    · intro p ifc w w' h1 hnc hw hw'
      have hpres : storeFind (incrementTick s r now).oidMap (ifDiscKey ifc.index)
          = storeFind s.oidMap (ifDiscKey ifc.index) := by
        rw [incrementTick_oidMap]
        exact slowOidUpdate_find_ne _ _ (ifDiscKey_ne_sysUpTimeOid _)
      rw [step, oidU32_congr _ _ _ hpres, hw] at hw'
      injection hw' with hw'
      subst hw'
      exact ⟨Or.inl rfl, fun _ => le_refl _⟩

/-- C4 amended witness: a concrete slow tick (no counter near its width)
leaves the first interface's counters and the sysUpTime entry nondecreasing,
and a concrete slow tick after one fast tick leaves the published Counter32
error entry of interface 1 nondecreasing. -/
theorem counters_monotone_mod_wrap_witness :
    ((initState ir0).interfaces.get? 0
        = some ⟨1, "GigabitEthernet1/0/1", 1, 1, 0, 0, 0, 0, 0, 0, 0⟩)
      ∧ ((step (initState ir0) (Tick.slow sr0 0)).interfaces.get? 0
        = some ⟨1, "GigabitEthernet1/0/1", 1, 1, 10000, 15000, 0, 0, 0, 0, 0⟩)
      ∧ (interfaceData.mk 1 "GigabitEthernet1/0/1" 1 1 0 0 0 0 0 0 0).inOctets
          ≤ (interfaceData.mk 1 "GigabitEthernet1/0/1" 1 1 10000 15000 0 0 0 0 0).inOctets
      ∧ sysUpTimeU32 (initState ir0) = some 12345000
      ∧ sysUpTimeU32 (step (initState ir0) (Tick.slow sr0 0)) = some 12345500
      ∧ (12345000 : ℕ) ≤ 12345500
      ∧ oidU32 (monitorTick (initState ir0) fr0 fe0).oidMap (ifErrKey 1) = some 0
      ∧ oidU32 (step (monitorTick (initState ir0) fr0 fe0) (Tick.slow sr0 0)).oidMap
          (ifErrKey 1) = some 0
      ∧ (0 : ℕ) ≤ 0 := by
  have hq1 : (monitorTick (initState ir0) fr0 fe0).interfaces.get? 0
      = some ⟨1, "GigabitEthernet1/0/1", 1, 1, 0, 0, 0, 0, 0, 0, 0⟩ := by decide
  have hnc : ∀ (q : ℕ) (ifc2 : interfaceData),
      (monitorTick (initState ir0) fr0 fe0).interfaces.get? q = some ifc2 → q ≠ 0
      → ifErrKey ifc2.index ≠ ifErrKey (1 : ℤ)
        ∧ ifDiscKey ifc2.index ≠ ifDiscKey (1 : ℤ) := by
    intro q ifc2 hq hne
    rcases q with _ | _ | _ | _ | _ | q
    · exact absurd rfl hne
    · have h2 : (monitorTick (initState ir0) fr0 fe0).interfaces.get? 1
          = some ⟨2, "GigabitEthernet1/0/2", 1, 1, 0, 0, 0, 0, 0, 0, 0⟩ := by decide
      rw [h2] at hq
      injection hq with hq
      rw [← hq]
      exact ⟨by decide, by decide⟩
    · have h2 : (monitorTick (initState ir0) fr0 fe0).interfaces.get? 2
          = some ⟨3, "GigabitEthernet1/0/3", 1, 2, 0, 0, 0, 0, 0, 0, 0⟩ := by decide
      rw [h2] at hq
      injection hq with hq
      rw [← hq]
      exact ⟨by decide, by decide⟩
    · have h2 : (monitorTick (initState ir0) fr0 fe0).interfaces.get? 3
          = some ⟨4, "GigabitEthernet1/0/4", 2, 2, 0, 0, 0, 0, 0, 0, 0⟩ := by decide
      rw [h2] at hq
      injection hq with hq
      rw [← hq]
      exact ⟨by decide, by decide⟩
    · have h2 : (monitorTick (initState ir0) fr0 fe0).interfaces.get? 4
          = some ⟨5, "Ten-GigabitEthernet1/0/1", 1, 1, 0, 0, 0, 0, 0, 0, 0⟩ := by decide
      rw [h2] at hq
      injection hq with hq
      rw [← hq]
      exact ⟨by decide, by decide⟩
    · have h2 : (monitorTick (initState ir0) fr0 fe0).interfaces.get? (q + 5) = none := by
        show (initInterfaces ir0).get? (q + 5) = none
        simp [initInterfaces, List.get?]
      rw [h2] at hq
      exact Option.noConfusion hq
  have hwE : oidU32 (monitorTick (initState ir0) fr0 fe0).oidMap (ifErrKey 1)
      = some 0 := by
    have h := (monitorTick_errDisc_written (initState ir0) fr0 fe0 0
      ⟨1, "GigabitEthernet1/0/1", 1, 1, 0, 0, 0, 0, 0, 0, 0⟩ (by decide) (by decide)
      (by norm_num [fe0]) hnc).1
    have h' : storeFind (monitorTick (initState ir0) fr0 fe0).oidMap (ifErrKey 1)
        = some ⟨ifErrKey 1, .counter32, .u32 0⟩ := h
    unfold oidU32
    rw [h']
  have hwE' : oidU32 (step (monitorTick (initState ir0) fr0 fe0) (Tick.slow sr0 0)).oidMap
      (ifErrKey 1) = some 0 := by
    have hpres : storeFind
        (incrementTick (monitorTick (initState ir0) fr0 fe0) sr0 0).oidMap (ifErrKey 1)
        = storeFind (monitorTick (initState ir0) fr0 fe0).oidMap (ifErrKey 1) := by
      rw [incrementTick_oidMap]
      exact slowOidUpdate_find_ne _ _ (ifErrKey_ne_sysUpTimeOid 1)
    have h2 := oidU32_congr (monitorTick (initState ir0) fr0 fe0).oidMap
      (incrementTick (monitorTick (initState ir0) fr0 fe0) sr0 0).oidMap (ifErrKey 1) hpres
    exact h2.trans hwE
  refine ⟨by decide, by decide, ?_, by decide, by decide, ?_, hwE, hwE', ?_⟩
  · exact (((counters_monotone_mod_wrap (initState ir0) (Tick.slow sr0 0)).2.2.2.2.1
      0 ⟨1, "GigabitEthernet1/0/1", 1, 1, 0, 0, 0, 0, 0, 0, 0⟩
      ⟨1, "GigabitEthernet1/0/1", 1, 1, 10000, 15000, 0, 0, 0, 0, 0⟩
      (by decide) (by decide)).1 (by decide))
  · exact (counters_monotone_mod_wrap (initState ir0) (Tick.slow sr0 0)).2.2.2.2.2.1
      12345000 12345500 (by decide) (by decide) (by decide)
  · exact ((counters_monotone_mod_wrap (monitorTick (initState ir0) fr0 fe0)
      (Tick.slow sr0 0)).2.2.2.2.2.2.1
      0 ⟨1, "GigabitEthernet1/0/1", 1, 1, 0, 0, 0, 0, 0, 0, 0⟩ 0 0
      hq1 hnc hwE hwE').2 (by decide)
